import Mathlib

/-!
# peloton-go: the API client (`client.go`)

A shallow embedding of `client.go` and the properties of its login exchange,
cookie refresh and four read operations.

The file has three layers.

* `fmt`, `http`, `resty`, `models`: the parts of the Go libraries the client
  calls, reduced to what `client.go` observes of them.  The network itself is
  a parameter: a `World` carries a round-trip function that answers every
  request handed to resty with resty's pair `(*Response, error)`, and records
  the requests it was handed.
* `peloton`: `client.go`, function by function, in a state-and-abort monad
  `Go` (the state is the `World`, an abort is `log.Fatal` or a run-time panic).
  A method with a pointer receiver returns the client it leaves.
* `json`, `url`: the wire formats the properties speak about (RFC 8259 string
  objects, the path and the query of a URL as `net/url` parses them), used
  only to state properties of the texts the client builds.

A "login response" is an answer of the transport with a response object and a
nil error; on a non-nil error `GetInitialAuthCookie` calls `log.Fatal` and
does not return.
-/

set_option autoImplicit false

/-! ## Go run-time: errors, aborts, the world -/

/-- A Go `error` value that is not nil. -/
structure Error where
  msg : String
  deriving DecidableEq, Repr

/-- The two ways a Go call can fail to return: `log.Fatal` (prints and calls
`os.Exit(1)`) and a run-time panic (nil dereference, failed type assertion). -/
inductive Abort where
  | fatal (err : Error)
  | runtimePanic (what : String)
  deriving DecidableEq, Repr

/-- What a call does: it returns a value, or the process aborts. -/
inductive Outcome (α : Type) where
  | ret (a : α)
  | abort (e : Abort)
  deriving Repr

namespace models

/-- The record types of package `models` with their Go zero values.  Their
fields are declared outside `client.go`; the client only allocates a zero
record and hands it to resty to be filled, so the types are parameters. -/
structure Models where
  User : Type
  Instructors : Type
  Workouts : Type
  WorkOutDetails : Type
  zeroUser : User
  zeroInstructors : Instructors
  zeroWorkouts : Workouts
  zeroWorkOutDetails : WorkOutDetails

end models

open models (Models)

namespace http

/-- The two fields of `net/http.Cookie` the client reads. -/
structure Cookie where
  Name : String
  Value : String
  deriving DecidableEq, Repr

/-- What the client observes of a `net/http.Response`: the status code and
the cookies set by its `Set-Cookie` headers, in header order. -/
structure Response where
  StatusCode : Nat
  Cookies : List Cookie
  deriving DecidableEq, Repr

end http

namespace resty

/-- The dynamic value of the `interface{}` held in `Request.Result`: nil, or
a pointer to one of the four model records. -/
inductive ResultValue (m : Models) where
  | null
  | User (u : m.User)
  | Instructors (i : m.Instructors)
  | Workouts (ws : m.Workouts)
  | WorkOutDetails (d : m.WorkOutDetails)

/-- A `resty.Client`: of its configuration the client sets the host URL. -/
structure Client where
  HostURL : String
  deriving DecidableEq, Repr

/-- A `resty.Request` under construction or as handed to the transport. -/
structure Request (m : Models) where
  client : Client
  Method : String
  URL : String
  Header : List (String × String)
  Body : Option String
  Result : ResultValue m

/-- A `resty.Response`: the request it answers (whose `Result` resty may have
decoded the body into) and the raw HTTP response, nil when none arrived. -/
structure Response (m : Models) where
  Request : Request m
  RawResponse : Option http.Response

end resty

/-- The world a client runs in.  `Getenv` is the process environment,
`roundTrip` is resty's `Request.Execute` together with the network and the
remote server (state `net`): it answers a request with resty's
`(*Response, error)` pair, either of which may be nil.  `sent` records the
requests handed to the transport so far, oldest first; resty parses the URL
of a request before anything goes on the wire, and answers a request whose
URL does not parse with a nil response and an error. -/
structure World (m : Models) (σ : Type) where
  Getenv : String → String
  roundTrip : σ → resty.Request m → (Option (resty.Response m) × Option Error) × σ
  net : σ
  sent : List (resty.Request m)

/-- The world after the transport has answered `req`: the remote state has
moved on and `req` is appended to the record of requests. -/
def World.after {m : Models} {σ : Type} (w : World m σ) (req : resty.Request m) : World m σ :=
  { w with net := (w.roundTrip w.net req).2, sent := w.sent ++ [req] }

/-- A Go computation: from a world to an outcome and the world it leaves. -/
def Go (m : Models) (σ : Type) (α : Type) : Type :=
  World m σ → Outcome α × World m σ

namespace Go

variable {m : Models} {σ : Type} {α β : Type}

/-- Return a value, leaving the world as it is. -/
def pure (a : α) : Go m σ α := fun w => (Outcome.ret a, w)

/-- Sequencing: an abort of the first computation ends the whole. -/
def bind (x : Go m σ α) (f : α → Go m σ β) : Go m σ β := fun w =>
  match x w with
  | (Outcome.ret a, w1) => f a w1
  | (Outcome.abort e, w1) => (Outcome.abort e, w1)

instance : Monad (Go m σ) where
  pure := Go.pure
  bind := Go.bind

/-- Abort the process. -/
def abort (e : Abort) : Go m σ α := fun w => (Outcome.abort e, w)

/-- Dereference a pointer: nil panics. -/
def deref (p : Option α) : Go m σ α :=
  match p with
  | some a => Go.pure a
  | none => abort (Abort.runtimePanic "invalid memory address or nil pointer dereference")

end Go

namespace os

/-- `os.Getenv`: the value of the variable, empty when unset. -/
def Getenv {m : Models} {σ : Type} (key : String) : Go m σ String :=
  fun w => (Outcome.ret (w.Getenv key), w)

end os

namespace log

/-- `log.Fatal(err)`: print and exit; it never returns. -/
def Fatal {m : Models} {σ : Type} {α : Type} (err : Error) : Go m σ α :=
  Go.abort (Abort.fatal err)

end log

/-! ## fmt.Sprintf on string operands -/

namespace fmt

/-- The rendering of the operands left over when the format is exhausted:
`%!(EXTRA string=a, string=b)`. -/
def extra (args : List String) : List Char :=
  match args with
  | [] => []
  | _ :: _ => "%!(EXTRA ".data ++ (", ".intercalate (args.map fun a => "string=" ++ a)).data ++ [')']

/-- The scanner of `fmt.Sprintf` for string operands and the verbs `%v`,
`%s` and `%%`, the only ones in the formats of `client.go`.  A verb with no
operand left prints `%!v(MISSING)`; any other verb on a string operand is
rendered as Go renders a verb that does not apply, `%!c(string=a)`. -/
def sprintfAux : List Char → List String → List Char
  | [], args => extra args
  | '%' :: '%' :: fs, args => '%' :: sprintfAux fs args
  | '%' :: c :: fs, [] => "%!".data ++ c :: "(MISSING)".data ++ sprintfAux fs []
  | '%' :: c :: fs, a :: args =>
      if c = 'v' ∨ c = 's' then a.data ++ sprintfAux fs args
      else "%!".data ++ c :: "(string=".data ++ a.data ++ ')' :: sprintfAux fs args
  | ['%'], _ => "%!(NOVERB)".data
  | c :: fs, args => c :: sprintfAux fs args

/-- `fmt.Sprintf(format, args...)` with string operands. -/
def Sprintf (format : String) (args : List String) : String :=
  String.mk (sprintfAux format.data args)

end fmt

/-! ## strings.TrimRight -/

namespace strings

/-- `strings.TrimRight(s, cutset)`: `s` without its trailing characters that
belong to `cutset`. -/
def TrimRight (s cutset : String) : String :=
  String.mk (s.data.reverse.dropWhile fun c => decide (c ∈ cutset.data)).reverse

end strings

/-! ## resty: building and executing requests -/

namespace resty

variable {m : Models} {σ : Type}

/-- `resty.New()`. -/
def New : Client := { HostURL := "" }

/-- `(*Client).SetHostURL`: resty stores `strings.TrimRight(url, "/")`. -/
def Client.SetHostURL (c : Client) (url : String) : Client :=
  { c with HostURL := strings.TrimRight url "/" }

/-- `(*Client).R()`: a fresh request of this client. -/
def Client.R (c : Client) : Request m :=
  { client := c, Method := "", URL := "", Header := [], Body := none, Result := ResultValue.null }

/-- `(*Request).SetHeader`: set the header, replacing an earlier value. -/
def Request.SetHeader (r : Request m) (header value : String) : Request m :=
  { r with Header := (r.Header.filter fun kv => kv.1 ≠ header) ++ [(header, value)] }

/-- `(*Request).SetBody`. -/
def Request.SetBody (r : Request m) (body : String) : Request m :=
  { r with Body := some body }

/-- `(*Request).SetResult`: attach the record the response is decoded into. -/
def Request.SetResult (r : Request m) (res : ResultValue m) : Request m :=
  { r with Result := res }

/-- `(*Request).Execute`: fix method and URL, hand the request to the
transport and return its `(*Response, error)`. -/
def Request.Execute (r : Request m) (method url : String) :
    Go m σ (Option (Response m) × Option Error) := fun w =>
  let req : Request m := { r with Method := method, URL := url }
  let (reply, net1) := w.roundTrip w.net req
  (Outcome.ret reply, { w with net := net1, sent := w.sent ++ [req] })

/-- `(*Request).Get`. -/
def Request.Get (r : Request m) (url : String) : Go m σ (Option (Response m) × Option Error) :=
  r.Execute "GET" url

/-- `(*Request).Post`. -/
def Request.Post (r : Request m) (url : String) : Go m σ (Option (Response m) × Option Error) :=
  r.Execute "POST" url

/-- `(*Response).StatusCode`: 0 when there is no raw response. -/
def Response.StatusCode (r : Response m) : Nat :=
  match r.RawResponse with
  | none => 0
  | some raw => raw.StatusCode

/-- `(*Response).IsError`: status code above 399. -/
def Response.IsError (r : Response m) : Bool := decide (r.StatusCode > 399)

/-- `(*Response).Cookies`: empty when there is no raw response. -/
def Response.Cookies (r : Response m) : List http.Cookie :=
  match r.RawResponse with
  | none => []
  | some raw => raw.Cookies

/-- `(*Response).Result`: the record attached to the request. -/
def Response.Result (r : Response m) : ResultValue m := r.Request.Result

end resty

/-! ## client.go -/

namespace peloton

variable {m : Models} {σ : Type}

/-- Default URL for all API requests. -/
def defaultBaseURL : String := "https://api.onepeloton.com"

/-- The client instance. -/
structure ApiClient where
  Client : resty.Client
  Username : String
  Password : String
  Cookie : Option http.Cookie
  deriving DecidableEq, Repr

/-- An element of the variadic `args ...interface{}`: a string, or a value of
some other dynamic type (of which only the type name matters). -/
inductive Arg where
  | string (s : String)
  | other (typeName : String)
  deriving DecidableEq, Repr

/-- The type assertion `arg.(string)`: it panics on any other dynamic type. -/
def Arg.assertString (arg : Arg) : Go m σ String :=
  match arg with
  | Arg.string s => Go.pure s
  | Arg.other t =>
      Go.abort (Abort.runtimePanic ("interface conversion: interface \x7b\x7d is " ++ t ++ ", not string"))

/-- The loop `for i, arg := range args { switch i { case 0: ...; case 1: ... } }`
of `NewApiClient`, from index `i` on, over the variables `(username, password)`. -/
def assignCredentials : Nat → List Arg → String × String → Go m σ (String × String)
  | _, [], up => Go.pure up
  | i, arg :: rest, (username, password) =>
      match i with
      | 0 => Go.bind arg.assertString fun s => assignCredentials 1 rest (s, password)
      | 1 => Go.bind arg.assertString fun s => assignCredentials 2 rest (username, s)
      | (k + 2) => assignCredentials (k + 3) rest (username, password)

/-- The loop `for _, cookie := range resp.Cookies()` of `GetInitialAuthCookie`
over the variable `authCookie`, which starts nil. -/
def scanCookies (cookies : List http.Cookie) : Option http.Cookie :=
  cookies.foldl
    (fun authCookie cookie => if cookie.Name = "peloton_session_id" then some cookie else authCookie)
    none

/-- The body of the login request, line 54 of `client.go`:
`authData := []byte(fmt.Sprintf(..., username, password))`. -/
def authData (username password : String) : String :=
  fmt.Sprintf "\x7b\"username_or_email\": \"%v\", \"password\": \"%v\"\x7d" [username, password]

/-- GetAuthCookie method to set the peloton_session_id cookie. -/
def GetInitialAuthCookie (c : resty.Client) (username password : String) :
    Go m σ (Option http.Cookie × Option Error) := do
  let authData := authData username password
  let (resp, err) ← (c.R.SetBody authData).Post "/auth/login"
  -- `err != nil || resp.IsError()`: the right operand is evaluated only when err is nil
  let failed ← (match err with
    | some _ => Go.pure true
    | none => Go.bind (Go.deref resp) fun r => Go.pure r.IsError)
  if failed then
    match err with
    | some e => log.Fatal e
    | none => Go.pure ()
  let r ← Go.deref resp
  let authCookie := scanCookies r.Cookies
  return (authCookie, none)

/-- Instantiate a new instance of the API client. -/
def NewApiClient (args : List Arg) : Go m σ (ApiClient × Option Error) := do
  let client := resty.New
  let apiURL ← os.Getenv "API_ADDR"
  let apiURL := if apiURL = "" then defaultBaseURL else apiURL
  let (username, password) ←
    (if args.length = 2 then assignCredentials 0 args ("", "") else Go.pure ("", ""))
  let client := client.SetHostURL apiURL
  let (cookie, _) ← GetInitialAuthCookie client username password
  return ({ Client := client, Username := username, Password := password, Cookie := cookie }, none)

/-- Update AuthCookie from client.  The receiver is a pointer: the second
component of the result is the client after the call. -/
def ApiClient.UpdateAuthCookie (c : ApiClient) :
    Go m σ ((Option http.Cookie × Option Error) × ApiClient) := do
  let (cookie, _) ← GetInitialAuthCookie c.Client c.Username c.Password
  let c := { c with Cookie := cookie }
  return ((cookie, none), c)

/-- Me method creates a request to retrieve data about the current user. -/
def ApiClient.Me (c : ApiClient) : Go m σ ((m.User × Option Error) × ApiClient) := do
  let (resp, _) ← ((c.Client.R.SetHeader "Accept" "application/json").SetResult
    (resty.ResultValue.User m.zeroUser)).Get "/api/me"
  let r ← Go.deref resp
  match r.Result with
  | resty.ResultValue.User u => return ((u, none), c)
  | _ => Go.abort (Abort.runtimePanic "interface conversion: interface \x7b\x7d is not *models.User")

/-- Instructors method creates a request to retrieve data about the instructors. -/
def ApiClient.GetInstructors (c : ApiClient) :
    Go m σ ((m.Instructors × Option Error) × ApiClient) := do
  let (resp, _) ← ((c.Client.R.SetHeader "Accept" "application/json").SetResult
    (resty.ResultValue.Instructors m.zeroInstructors)).Get "/api/instructor"
  let r ← Go.deref resp
  match r.Result with
  | resty.ResultValue.Instructors i => return ((i, none), c)
  | _ => Go.abort (Abort.runtimePanic "interface conversion: interface \x7b\x7d is not *models.Instructors")

/-- Workouts method creates a request to retrieve workout data by userid. -/
def ApiClient.GetUserWorkouts (c : ApiClient) (userid : String) :
    Go m σ ((m.Workouts × Option Error) × ApiClient) := do
  let userWorkoutUrl := fmt.Sprintf "/api/user/%s/workouts" [userid]
  let (resp, _) ← ((c.Client.R.SetHeader "Accept" "application/json").SetResult
    (resty.ResultValue.Workouts m.zeroWorkouts)).Get userWorkoutUrl
  let r ← Go.deref resp
  match r.Result with
  | resty.ResultValue.Workouts ws => return ((ws, none), c)
  | _ => Go.abort (Abort.runtimePanic "interface conversion: interface \x7b\x7d is not *models.Workouts")

/-- Get specific workout details. -/
def ApiClient.GetWorkoutDetails (c : ApiClient) (workoutId interval : String) :
    Go m σ ((m.WorkOutDetails × Option Error) × ApiClient) := do
  let workoutDetailUrl :=
    fmt.Sprintf "/api/workout/%s/performance_graph?every_n=%s" [workoutId, interval]
  let (resp, _) ← ((c.Client.R.SetHeader "Accept" "application/json").SetResult
    (resty.ResultValue.WorkOutDetails m.zeroWorkOutDetails)).Get workoutDetailUrl
  let r ← Go.deref resp
  match r.Result with
  | resty.ResultValue.WorkOutDetails d => return ((d, none), c)
  | _ => Go.abort (Abort.runtimePanic "interface conversion: interface \x7b\x7d is not *models.WorkOutDetails")

/-! ### The requests the client builds, and sequences of operations -/

/-- The login request, written out: a POST of `/auth/login` by client `c`, no
header set, no result attached, whose body is the text
`{"username_or_email": "<username>", "password": "<password>"}`.  That
`GetInitialAuthCookie` hands the transport exactly this request is
`GetInitialAuthCookie_run`. -/
def loginRequest (c : resty.Client) (username password : String) : resty.Request m :=
  { client := c, Method := "POST", URL := "/auth/login", Header := [],
    Body := some ("\x7b\"username_or_email\": \"" ++ username ++ "\", \"password\": \""
      ++ password ++ "\"\x7d"),
    Result := resty.ResultValue.null }

/-- The request a read operation hands to the transport:
`c.Client.R().SetHeader("Accept", "application/json").SetResult(result).Get(url)`. -/
def readRequest (c : resty.Client) (result : resty.ResultValue m) (url : String) :
    resty.Request m :=
  { client := c, Method := "GET", URL := url, Header := [("Accept", "application/json")],
    Body := none, Result := result }

/-- The resty client `NewApiClient` configures (lines 30-34 and 47): the host
URL is `API_ADDR`, or the default URL when that is empty. -/
def hostClient (w : World m σ) : resty.Client :=
  resty.New.SetHostURL (if w.Getenv "API_ADDR" = "" then defaultBaseURL else w.Getenv "API_ADDR")

/-- A call of one of the five methods of `*ApiClient`. -/
inductive Op where
  | UpdateAuthCookie
  | Me
  | GetInstructors
  | GetUserWorkouts (userid : String)
  | GetWorkoutDetails (workoutId interval : String)
  deriving DecidableEq, Repr

/-- Call the method on the client and keep the client it leaves. -/
def Op.run (op : Op) (c : ApiClient) : Go m σ ApiClient :=
  match op with
  | Op.UpdateAuthCookie => Go.bind c.UpdateAuthCookie fun r => Go.pure r.2
  | Op.Me => Go.bind c.Me fun r => Go.pure r.2
  | Op.GetInstructors => Go.bind c.GetInstructors fun r => Go.pure r.2
  | Op.GetUserWorkouts userid => Go.bind (c.GetUserWorkouts userid) fun r => Go.pure r.2
  | Op.GetWorkoutDetails workoutId interval =>
      Go.bind (c.GetWorkoutDetails workoutId interval) fun r => Go.pure r.2

/-- Call the methods one after the other on the same client. -/
def runOps : List Op → ApiClient → Go m σ ApiClient
  | [], c => Go.pure c
  | op :: ops, c => Go.bind (op.run c) fun c1 => runOps ops c1

/-! ### A mocked server, for concrete runs -/

/-- Model records that are the decoded text, the zero record being empty. -/
def mockModels : Models :=
  { User := String, Instructors := String, Workouts := String, WorkOutDetails := String,
    zeroUser := "", zeroInstructors := "", zeroWorkouts := "", zeroWorkOutDetails := "" }

/-- A world with an empty environment whose transport answers every request
with the same raw response and error; the response object carries the
request as it was sent, with `decoded` (when given) in place of its result. -/
def mockWorld (raw : Option http.Response) (err : Option Error)
    (decoded : Option (resty.ResultValue mockModels)) : World mockModels Unit :=
  { Getenv := fun _ => "",
    roundTrip := fun s req =>
      ((some { Request := { req with Result := decoded.getD req.Result }, RawResponse := raw }, err), s),
    net := (),
    sent := [] }

end peloton

/-! ## Wire formats: JSON string objects and URL queries

These definitions are not part of `client.go`.  They say what it means for
the login body to be a JSON object of two strings (RFC 8259) and for a
request URL to have a path and query parameters (`url.Parse` and
`url.ParseQuery` of Go's `net/url`, errors included, on the rooted references
the client builds), so that the properties of the text the client builds can
be stated. -/

namespace json

/-- JSON whitespace. -/
def isWhitespace (c : Char) : Bool := c = ' ' || c = '\t' || c = '\n' || c = '\r'

/-- Drop leading whitespace. -/
def skipWhitespace (cs : List Char) : List Char := cs.dropWhile isWhitespace

/-- The value of a hexadecimal digit. -/
def hexDigit (c : Char) : Option Nat :=
  if 48 ≤ c.toNat ∧ c.toNat ≤ 57 then some (c.toNat - 48)
  else if 97 ≤ c.toNat ∧ c.toNat ≤ 102 then some (c.toNat - 87)
  else if 65 ≤ c.toNat ∧ c.toNat ≤ 70 then some (c.toNat - 55)
  else none

/-- The code unit written by the four hexadecimal digits of a `\u` escape. -/
def hex4 (a b c d : Char) : Option Nat :=
  match hexDigit a, hexDigit b, hexDigit c, hexDigit d with
  | some x, some y, some z, some t => some (((x * 16 + y) * 16 + z) * 16 + t)
  | _, _, _, _ => none

/-- The character of a two-character escape `\e`. -/
def simpleEscape (e : Char) : Option Char :=
  if e = '"' then some '"'
  else if e = '\\' then some '\\'
  else if e = '/' then some '/'
  else if e = 'b' then some (Char.ofNat 8)
  else if e = 'f' then some (Char.ofNat 12)
  else if e = 'n' then some '\n'
  else if e = 'r' then some '\r'
  else if e = 't' then some '\t'
  else none

/-- A character that may stand unescaped in a JSON string and then stands for
itself: not the quote, not the backslash, not a control character. -/
def plain (c : Char) : Bool := c != '"' && c != '\\' && decide (0x20 ≤ c.toNat)

/-- Put a decoded character in front of the rest of a decoded string. -/
def push (c : Char) (r : Option (List Char × List Char)) : Option (List Char × List Char) :=
  r.map fun vr => (c :: vr.1, vr.2)

/-- Decode one escape sequence, given the text after its backslash: the
character it stands for and the text after the sequence.  A `\u` escape gives
its code unit; a high surrogate followed by a `\u` low surrogate gives the
character of the pair, any other surrogate gives U+FFFD. -/
def escape (rest : List Char) : Option (Char × List Char) :=
  match rest with
  | [] => none
  | e :: rest1 =>
    if e = 'u' then
      match rest1 with
      | a :: b :: c :: d :: rest2 =>
        match hex4 a b c d with
        | none => none
        | some hi =>
          if 0xD800 ≤ hi ∧ hi < 0xE000 then
            match rest2 with
            | bs :: u2 :: a2 :: b2 :: c2 :: d2 :: rest3 =>
              match hex4 a2 b2 c2 d2 with
              | some lo =>
                if bs = '\\' ∧ u2 = 'u' ∧ hi < 0xDC00 ∧ 0xDC00 ≤ lo ∧ lo < 0xE000 then
                  some (Char.ofNat (0x10000 + (hi - 0xD800) * 0x400 + (lo - 0xDC00)), rest3)
                else some (Char.ofNat 0xFFFD, rest2)
              | none => some (Char.ofNat 0xFFFD, rest2)
            | _ => some (Char.ofNat 0xFFFD, rest2)
          else some (Char.ofNat hi, rest2)
      | _ => none
    else (simpleEscape e).map fun ch => (ch, rest1)

/-- Decode the inside of a JSON string with at most `fuel` steps, one per
character or escape sequence, up to and including the closing quote: the
decoded characters and the text after the quote.  A raw control character, an
unknown escape or a missing closing quote is an error. -/
def unquoteFuel : Nat → List Char → Option (List Char × List Char)
  | 0, _ => none
  | _ + 1, [] => none
  | fuel + 1, c :: rest =>
    if c = '"' then some ([], rest)
    else if c = '\\' then
      match escape rest with
      | none => none
      | some (ch, rest1) => push ch (unquoteFuel fuel rest1)
    else if c.toNat < 0x20 then none
    else push c (unquoteFuel fuel rest)

/-- Decode the inside of a JSON string; the length of the text is fuel
enough, every step consuming a character. -/
def unquote (cs : List Char) : Option (List Char × List Char) :=
  unquoteFuel cs.length cs

/-- A JSON string at the head of the text: its value and the text after it. -/
def stringLiteral (cs : List Char) : Option (String × List Char) :=
  match cs with
  | '"' :: rest => (unquote rest).map fun vr => (String.mk vr.1, vr.2)
  | _ => none

/-- An object member `"key" : "value"` whose value is a string, with optional
whitespace before the key, around the colon: the pair and the text after it. -/
def stringMember (cs : List Char) : Option ((String × String) × List Char) :=
  match stringLiteral (skipWhitespace cs) with
  | none => none
  | some (key, r1) =>
    match skipWhitespace r1 with
    | ':' :: r2 =>
      match stringLiteral (skipWhitespace r2) with
      | none => none
      | some (value, r3) => some ((key, value), r3)
    | _ => none

/-- Decode a text that is a well-formed JSON object with exactly two members
whose values are strings: the two (name, value) pairs in order; `none` for
any other text. -/
def twoStringMembers (text : String) : Option ((String × String) × (String × String)) :=
  match skipWhitespace text.data with
  | '{' :: r0 =>
    match stringMember r0 with
    | none => none
    | some (m1, r1) =>
      match skipWhitespace r1 with
      | ',' :: r2 =>
        match stringMember r2 with
        | none => none
        | some (m2, r3) =>
          match skipWhitespace r3 with
          | '}' :: r4 => if skipWhitespace r4 = [] then some (m1, m2) else none
          | _ => none
      | _ => none
  | _ => none

end json

namespace url

/-- `strings.Cut(s, sep)`: the text before the first `sep` and, when there is
one, the text after it. -/
def cut (sep : Char) : List Char → List Char × Option (List Char)
  | [] => ([], none)
  | c :: cs => if c = sep then ([], some cs) else ((c :: (cut sep cs).1), (cut sep cs).2)

/-- The pieces of a text between the occurrences of `sep`. -/
def splitOn (sep : Char) : List Char → List (List Char)
  | [] => [[]]
  | c :: cs =>
    if c = sep then [] :: splitOn sep cs
    else
      match splitOn sep cs with
      | piece :: pieces => (c :: piece) :: pieces
      | [] => [[c]]

/-- The UTF-8 bytes of a character (a Go string is its bytes). -/
def utf8 (c : Char) : List Nat :=
  if c.toNat < 0x80 then [c.toNat]
  else if c.toNat < 0x800 then [0xC0 + c.toNat / 0x40, 0x80 + c.toNat % 0x40]
  else if c.toNat < 0x10000 then
    [0xE0 + c.toNat / 0x1000, 0x80 + c.toNat / 0x40 % 0x40, 0x80 + c.toNat % 0x40]
  else
    [0xF0 + c.toNat / 0x40000, 0x80 + c.toNat / 0x1000 % 0x40, 0x80 + c.toNat / 0x40 % 0x40,
      0x80 + c.toNat % 0x40]

/-- The bytes of a string. -/
def bytes (s : List Char) : List Nat :=
  match s with
  | [] => []
  | c :: cs => utf8 c ++ bytes cs

/-- `url.QueryUnescape`: `+` is a space, `%XY` is the byte `XY`, any other
character stands for itself; a `%` not followed by two hexadecimal digits is
an error. -/
def unescape : List Char → Option (List Nat)
  | [] => some []
  | c :: rest =>
    if c = '%' then
      match rest with
      | a :: b :: rest2 =>
        match json.hexDigit a, json.hexDigit b with
        | some x, some y => (unescape rest2).map fun bs => (x * 16 + y) :: bs
        | _, _ => none
      | _ => none
    else if c = '+' then (unescape rest).map fun bs => 0x20 :: bs
    else (unescape rest).map fun bs => utf8 c ++ bs

/-- One `key=value` piece of a query, as `url.ParseQuery` reads it: a piece
that is empty, contains `;` or does not unescape is skipped; a piece without
`=` has an empty value. -/
def parsePiece (piece : List Char) : Option (List Nat × List Nat) :=
  if ';' ∈ piece then none
  else if piece = [] then none
  else
    match unescape (cut '=' piece).1, unescape (((cut '=' piece).2).getD []) with
    | some k, some v => some (k, v)
    | _, _ => none

/-- `url.ParseQuery`: the (key, value) parameters of a query, in order. -/
def parseQuery (query : List Char) : List (List Nat × List Nat) :=
  (splitOn '&' query).filterMap parsePiece

/-- What the client and the server see of a parsed `url.URL`: the decoded
path (its bytes), the raw query and the decoded fragment. -/
structure URL where
  Path : List Nat
  RawQuery : List Char
  Fragment : List Nat
  deriving DecidableEq, Repr

/-- The result of parsing a URL reference: a URL, the error `url.Parse`
returns, or a reference of a form that is not modelled here. -/
inductive ParseResult where
  | ok (u : URL)
  | error
  | notModelled
  deriving DecidableEq, Repr

/-- `stringContainsCTLByte`: an ASCII control character, below 0x20 or 0x7f. -/
def containsCTL (s : List Char) : Bool :=
  s.any fun c => decide (c.toNat < 0x20) || decide (c.toNat = 0x7f)

/-- The unescaping `url.Parse` applies to a path and to a fragment: `%XY` is
the byte `XY`, any other character stands for itself (`+` included); a `%`
not followed by two hexadecimal digits is an error. -/
def unescapePath : List Char → Option (List Nat)
  | [] => some []
  | c :: rest =>
    if c = '%' then
      match rest with
      | a :: b :: rest2 =>
        match json.hexDigit a, json.hexDigit b with
        | some x, some y => (unescapePath rest2).map fun bs => (x * 16 + y) :: bs
        | _, _ => none
      | _ => none
    else (unescapePath rest).map fun bs => utf8 c ++ bs

/-- `url.Parse` on a reference that begins with `/`, without scheme or
authority: the fragment is what follows the first `#`; a control character
before the fragment is an error; the query is what follows the first `?`; the
path and the fragment must unescape. -/
def parseRooted (rawurl : List Char) : ParseResult :=
  if containsCTL (cut '#' rawurl).1 then ParseResult.error
  else
    match unescapePath (cut '?' (cut '#' rawurl).1).1,
      unescapePath (((cut '#' rawurl).2).getD []) with
    | some path, some fragment =>
        ParseResult.ok
          { Path := path, RawQuery := ((cut '?' (cut '#' rawurl).1).2).getD [],
            Fragment := fragment }
    | _, _ => ParseResult.error

/-- `url.Parse` on the request URLs of `client.go`, which all begin with a
single `/`.  A reference that begins with `//` (an authority) or with
anything but `/` (a scheme, a rootless path) is not modelled. -/
def Parse (rawurl : String) : ParseResult :=
  match rawurl.data with
  | '/' :: '/' :: _ => ParseResult.notModelled
  | '/' :: _ => parseRooted rawurl.data
  | _ => ParseResult.notModelled

/-- The query parameters of a request URL, as `url.Parse` and the `Query`
of the parsed URL give them; `none` when the URL does not parse. -/
def queryParameters (rawurl : String) : Option (List (List Nat × List Nat)) :=
  match Parse rawurl with
  | ParseResult.ok u => some (parseQuery u.RawQuery)
  | _ => none

end url

namespace peloton

/-- A mocked server behind resty's own URL check: a request whose URL
`url.Parse` rejects is answered by resty with a nil response and an error,
nothing being sent; any other request is answered as `mockWorld` does. -/
def restyWorld (raw : Option http.Response) (err : Option Error)
    (decoded : Option (resty.ResultValue mockModels)) : World mockModels Unit :=
  { Getenv := fun _ => "",
    roundTrip := fun s req =>
      if url.Parse req.URL = url.ParseResult.error then
        ((none, some ⟨"parse: invalid URL"⟩), s)
      else (mockWorld raw err decoded).roundTrip s req,
    net := (),
    sent := [] }

end peloton

/-! ## Theorems -/

namespace fmt

theorem Sprintf_authData (username password : String) :
    (Sprintf "\x7b\"username_or_email\": \"%v\", \"password\": \"%v\"\x7d" [username, password]).data =
      "\x7b\"username_or_email\": \"".data ++ username.data ++ "\", \"password\": \"".data ++
        password.data ++ "\"\x7d".data := by
  simp [Sprintf, sprintfAux, extra]

theorem Sprintf_userWorkouts (userid : String) :
    Sprintf "/api/user/%s/workouts" [userid] = "/api/user/" ++ userid ++ "/workouts" := by
  apply String.ext
  simp [Sprintf, sprintfAux, extra]

theorem Sprintf_workoutDetails (workoutId interval : String) :
    Sprintf "/api/workout/%s/performance_graph?every_n=%s" [workoutId, interval] =
      "/api/workout/" ++ workoutId ++ "/performance_graph?every_n=" ++ interval := by
  apply String.ext
  simp [Sprintf, sprintfAux, extra]

end fmt

namespace peloton

variable {m : Models} {σ : Type}

/-! ### What each operation does, in one equation -/

theorem authData_eq (u p : String) :
    authData u p
      = "\x7b\"username_or_email\": \"" ++ u ++ "\", \"password\": \"" ++ p ++ "\"\x7d" := by
  apply String.ext
  simp [authData, fmt.Sprintf, fmt.sprintfAux, fmt.extra]

theorem scanCookies_append_singleton (cookies : List http.Cookie) (k : http.Cookie) :
    scanCookies (cookies ++ [k]) =
      if k.Name = "peloton_session_id" then some k else scanCookies cookies := by
  simp [scanCookies, List.foldl_append]

theorem scanCookies_eq_getLast? (cookies : List http.Cookie) :
    scanCookies cookies =
      (cookies.filter fun k => k.Name = "peloton_session_id").getLast? := by
  induction cookies using List.reverseRecOn with
  | nil => rfl
  | append_singleton l k ih =>
    rw [scanCookies_append_singleton, List.filter_append]
    by_cases hk : k.Name = "peloton_session_id"
    · simp [hk, List.filter_cons]
    · simp [hk, List.filter_cons, ih]

theorem GetInitialAuthCookie_run (c : resty.Client) (username password : String) (w : World m σ) :
    GetInitialAuthCookie c username password w =
      ((match (w.roundTrip w.net (loginRequest c username password)).1 with
        | (_, some e) => Outcome.abort (Abort.fatal e)
        | (none, none) =>
            Outcome.abort (Abort.runtimePanic "invalid memory address or nil pointer dereference")
        | (some r, none) => Outcome.ret (scanCookies r.Cookies, none)),
       w.after (loginRequest c username password)) := by
  obtain ⟨env, rt, net, sent⟩ := w
  unfold GetInitialAuthCookie resty.Request.Post resty.Request.Execute World.after
  simp only [bind, Go.bind, resty.Client.R, resty.Request.SetBody, loginRequest, authData_eq]
  rcases h : rt net _ with ⟨⟨resp, err⟩, n1⟩
  cases err <;> cases resp <;> simp [Go.deref, Go.bind, Go.pure, Go.abort, log.Fatal, pure]

theorem assignCredentials_two (u p : String) (w : World m σ) :
    assignCredentials 0 [Arg.string u, Arg.string p] ("", "") w = (Outcome.ret (u, p), w) := by
  simp [assignCredentials, Arg.assertString, Go.bind, Go.pure]

theorem NewApiClient_run (args : List Arg) (u p : String) (w : World m σ)
    (hargs : args = [Arg.string u, Arg.string p] ∨ (args.length ≠ 2 ∧ u = "" ∧ p = "")) :
    NewApiClient args w =
      ((match (w.roundTrip w.net (loginRequest (hostClient w) u p)).1 with
        | (_, some e) => Outcome.abort (Abort.fatal e)
        | (none, none) =>
            Outcome.abort (Abort.runtimePanic "invalid memory address or nil pointer dereference")
        | (some r, none) =>
            Outcome.ret ({ Client := hostClient w, Username := u, Password := p,
                           Cookie := scanCookies r.Cookies }, none)),
       w.after (loginRequest (hostClient w) u p)) := by
  have hcred : (if args.length = 2 then assignCredentials 0 args ("", "") else Go.pure ("", "")) w
      = (Outcome.ret (u, p), w) := by
    rcases hargs with h | ⟨hlen, hu, hp⟩
    · subst h
      simpa using assignCredentials_two u p w
    · subst hu hp
      simp [hlen, Go.pure]
  unfold NewApiClient
  simp only [bind, Go.bind, os.Getenv, hcred, GetInitialAuthCookie_run]
  have hc : resty.New.SetHostURL
      (if w.Getenv "API_ADDR" = "" then defaultBaseURL else w.Getenv "API_ADDR") = hostClient w := rfl
  simp only [hc]
  generalize (w.roundTrip w.net (loginRequest (hostClient w) u p)).1 = reply
  rcases reply with ⟨resp, err⟩
  cases err <;> cases resp <;> simp [pure, Go.pure]

theorem UpdateAuthCookie_run (c : ApiClient) (w : World m σ) :
    c.UpdateAuthCookie w =
      ((match (w.roundTrip w.net (loginRequest c.Client c.Username c.Password)).1 with
        | (_, some e) => Outcome.abort (Abort.fatal e)
        | (none, none) =>
            Outcome.abort (Abort.runtimePanic "invalid memory address or nil pointer dereference")
        | (some r, none) =>
            Outcome.ret ((scanCookies r.Cookies, none), { c with Cookie := scanCookies r.Cookies })),
       w.after (loginRequest c.Client c.Username c.Password)) := by
  unfold ApiClient.UpdateAuthCookie
  simp only [bind, Go.bind, GetInitialAuthCookie_run]
  generalize (w.roundTrip w.net (loginRequest c.Client c.Username c.Password)).1 = reply
  rcases reply with ⟨resp, err⟩
  cases err <;> cases resp <;> simp [pure, Go.pure]

theorem Get_run (c : resty.Client) (result : resty.ResultValue m) (url : String) (w : World m σ) :
    ((c.R.SetHeader "Accept" "application/json").SetResult result).Get url w =
      (Outcome.ret (w.roundTrip w.net (readRequest c result url)).1,
       w.after (readRequest c result url)) := by
  obtain ⟨env, rt, net, sent⟩ := w
  simp [resty.Request.Get, resty.Request.Execute, resty.Client.R, resty.Request.SetHeader,
    resty.Request.SetResult, readRequest, World.after]

theorem Me_run (c : ApiClient) (w : World m σ) :
    c.Me w =
      ((match (w.roundTrip w.net
            (readRequest c.Client (resty.ResultValue.User m.zeroUser) "/api/me")).1.1 with
        | none =>
            Outcome.abort (Abort.runtimePanic "invalid memory address or nil pointer dereference")
        | some r =>
            match r.Result with
            | resty.ResultValue.User u => Outcome.ret ((u, none), c)
            | _ => Outcome.abort
                (Abort.runtimePanic "interface conversion: interface \x7b\x7d is not *models.User")),
       w.after (readRequest c.Client (resty.ResultValue.User m.zeroUser) "/api/me")) := by
  unfold ApiClient.Me
  simp only [bind, Go.bind, Get_run]
  generalize (w.roundTrip w.net
    (readRequest c.Client (resty.ResultValue.User m.zeroUser) "/api/me")).1.1 = resp
  cases resp with
  | none => simp [Go.deref, Go.abort]
  | some r =>
    simp only [Go.deref, Go.pure]
    cases r.Result <;> simp [pure, Go.pure, Go.abort]

theorem GetInstructors_run (c : ApiClient) (w : World m σ) :
    c.GetInstructors w =
      ((match (w.roundTrip w.net (readRequest c.Client
            (resty.ResultValue.Instructors m.zeroInstructors) "/api/instructor")).1.1 with
        | none =>
            Outcome.abort (Abort.runtimePanic "invalid memory address or nil pointer dereference")
        | some r =>
            match r.Result with
            | resty.ResultValue.Instructors i => Outcome.ret ((i, none), c)
            | _ => Outcome.abort
                (Abort.runtimePanic "interface conversion: interface \x7b\x7d is not *models.Instructors")),
       w.after (readRequest c.Client
            (resty.ResultValue.Instructors m.zeroInstructors) "/api/instructor")) := by
  unfold ApiClient.GetInstructors
  simp only [bind, Go.bind, Get_run]
  generalize (w.roundTrip w.net (readRequest c.Client
    (resty.ResultValue.Instructors m.zeroInstructors) "/api/instructor")).1.1 = resp
  cases resp with
  | none => simp [Go.deref, Go.abort]
  | some r =>
    simp only [Go.deref, Go.pure]
    cases r.Result <;> simp [pure, Go.pure, Go.abort]

theorem GetUserWorkouts_run (c : ApiClient) (userid : String) (w : World m σ) :
    c.GetUserWorkouts userid w =
      ((match (w.roundTrip w.net (readRequest c.Client (resty.ResultValue.Workouts m.zeroWorkouts)
            ("/api/user/" ++ userid ++ "/workouts"))).1.1 with
        | none =>
            Outcome.abort (Abort.runtimePanic "invalid memory address or nil pointer dereference")
        | some r =>
            match r.Result with
            | resty.ResultValue.Workouts ws => Outcome.ret ((ws, none), c)
            | _ => Outcome.abort
                (Abort.runtimePanic "interface conversion: interface \x7b\x7d is not *models.Workouts")),
       w.after (readRequest c.Client (resty.ResultValue.Workouts m.zeroWorkouts)
            ("/api/user/" ++ userid ++ "/workouts"))) := by
  unfold ApiClient.GetUserWorkouts
  simp only [bind, Go.bind, Get_run, fmt.Sprintf_userWorkouts]
  generalize (w.roundTrip w.net (readRequest c.Client (resty.ResultValue.Workouts m.zeroWorkouts)
    ("/api/user/" ++ userid ++ "/workouts"))).1.1 = resp
  cases resp with
  | none => simp [Go.deref, Go.abort]
  | some r =>
    simp only [Go.deref, Go.pure]
    cases r.Result <;> simp [pure, Go.pure, Go.abort]

theorem GetWorkoutDetails_run (c : ApiClient) (workoutId interval : String) (w : World m σ) :
    c.GetWorkoutDetails workoutId interval w =
      ((match (w.roundTrip w.net (readRequest c.Client
            (resty.ResultValue.WorkOutDetails m.zeroWorkOutDetails)
            ("/api/workout/" ++ workoutId ++ "/performance_graph?every_n=" ++ interval))).1.1 with
        | none =>
            Outcome.abort (Abort.runtimePanic "invalid memory address or nil pointer dereference")
        | some r =>
            match r.Result with
            | resty.ResultValue.WorkOutDetails d => Outcome.ret ((d, none), c)
            | _ => Outcome.abort
                (Abort.runtimePanic "interface conversion: interface \x7b\x7d is not *models.WorkOutDetails")),
       w.after (readRequest c.Client (resty.ResultValue.WorkOutDetails m.zeroWorkOutDetails)
            ("/api/workout/" ++ workoutId ++ "/performance_graph?every_n=" ++ interval))) := by
  unfold ApiClient.GetWorkoutDetails
  simp only [bind, Go.bind, Get_run, fmt.Sprintf_workoutDetails]
  generalize (w.roundTrip w.net (readRequest c.Client
    (resty.ResultValue.WorkOutDetails m.zeroWorkOutDetails)
    ("/api/workout/" ++ workoutId ++ "/performance_graph?every_n=" ++ interval))).1.1 = resp
  cases resp with
  | none => simp [Go.deref, Go.abort]
  | some r =>
    simp only [Go.deref, Go.pure]
    cases r.Result <;> simp [pure, Go.pure, Go.abort]

theorem Me_returns (c : ApiClient) (w w1 : World m σ) (r : (m.User × Option Error) × ApiClient)
    (h : c.Me w = (Outcome.ret r, w1)) : r.1.2 = none ∧ r.2 = c := by
  rw [Me_run, Prod.mk.injEq] at h
  obtain ⟨h1, -⟩ := h
  split at h1
  · cases h1
  · split at h1 <;> cases h1
    simp

theorem GetInstructors_returns (c : ApiClient) (w w1 : World m σ)
    (r : (m.Instructors × Option Error) × ApiClient)
    (h : c.GetInstructors w = (Outcome.ret r, w1)) : r.1.2 = none ∧ r.2 = c := by
  rw [GetInstructors_run, Prod.mk.injEq] at h
  obtain ⟨h1, -⟩ := h
  split at h1
  · cases h1
  · split at h1 <;> cases h1
    simp

theorem GetUserWorkouts_returns (c : ApiClient) (userid : String) (w w1 : World m σ)
    (r : (m.Workouts × Option Error) × ApiClient)
    (h : c.GetUserWorkouts userid w = (Outcome.ret r, w1)) : r.1.2 = none ∧ r.2 = c := by
  rw [GetUserWorkouts_run, Prod.mk.injEq] at h
  obtain ⟨h1, -⟩ := h
  split at h1
  · cases h1
  · split at h1 <;> cases h1
    simp

theorem GetWorkoutDetails_returns (c : ApiClient) (workoutId interval : String) (w w1 : World m σ)
    (r : (m.WorkOutDetails × Option Error) × ApiClient)
    (h : c.GetWorkoutDetails workoutId interval w = (Outcome.ret r, w1)) :
    r.1.2 = none ∧ r.2 = c := by
  rw [GetWorkoutDetails_run, Prod.mk.injEq] at h
  obtain ⟨h1, -⟩ := h
  split at h1
  · cases h1
  · split at h1 <;> cases h1
    simp

theorem UpdateAuthCookie_returns (c : ApiClient) (w w1 : World m σ)
    (r : (Option http.Cookie × Option Error) × ApiClient)
    (h : c.UpdateAuthCookie w = (Outcome.ret r, w1)) :
    r.1.2 = none ∧ r.2 = { c with Cookie := r.1.1 } := by
  rw [UpdateAuthCookie_run, Prod.mk.injEq] at h
  obtain ⟨h1, -⟩ := h
  split at h1 <;> cases h1
  simp

theorem bind_returns {α β : Type} (x : Go m σ α) (f : α → Go m σ β) (w w2 : World m σ) (b : β)
    (h : Go.bind x f w = (Outcome.ret b, w2)) :
    ∃ a w1, x w = (Outcome.ret a, w1) ∧ f a w1 = (Outcome.ret b, w2) := by
  unfold Go.bind at h
  split at h
  · next a w1 hx => exact ⟨a, w1, hx, h⟩
  · cases h

/-- One method call leaves the resty client and the credentials as they were,
and a read operation leaves the whole client as it was. -/
theorem Op.run_keeps (op : Op) (c c1 : ApiClient) (w w1 : World m σ)
    (h : op.run c w = (Outcome.ret c1, w1)) :
    c1.Client = c.Client ∧ c1.Username = c.Username ∧ c1.Password = c.Password ∧
      (op ≠ Op.UpdateAuthCookie → c1 = c) := by
  cases op with
  | UpdateAuthCookie =>
    obtain ⟨r, w0, hr, hp⟩ := bind_returns _ _ _ _ _ h
    have hc := (UpdateAuthCookie_returns c w w0 r hr).2
    simp only [Go.pure, Prod.mk.injEq, Outcome.ret.injEq] at hp
    rw [← hp.1, hc]
    simp
  | Me =>
    obtain ⟨r, w0, hr, hp⟩ := bind_returns _ _ _ _ _ h
    have hc := (Me_returns c w w0 r hr).2
    simp only [Go.pure, Prod.mk.injEq, Outcome.ret.injEq] at hp
    rw [← hp.1, hc]
    simp
  | GetInstructors =>
    obtain ⟨r, w0, hr, hp⟩ := bind_returns _ _ _ _ _ h
    have hc := (GetInstructors_returns c w w0 r hr).2
    simp only [Go.pure, Prod.mk.injEq, Outcome.ret.injEq] at hp
    rw [← hp.1, hc]
    simp
  | GetUserWorkouts userid =>
    obtain ⟨r, w0, hr, hp⟩ := bind_returns _ _ _ _ _ h
    have hc := (GetUserWorkouts_returns c userid w w0 r hr).2
    simp only [Go.pure, Prod.mk.injEq, Outcome.ret.injEq] at hp
    rw [← hp.1, hc]
    simp
  | GetWorkoutDetails workoutId interval =>
    obtain ⟨r, w0, hr, hp⟩ := bind_returns _ _ _ _ _ h
    have hc := (GetWorkoutDetails_returns c workoutId interval w w0 r hr).2
    simp only [Go.pure, Prod.mk.injEq, Outcome.ret.injEq] at hp
    rw [← hp.1, hc]
    simp

theorem runOps_keeps (ops : List Op) (c c1 : ApiClient) (w w1 : World m σ)
    (h : runOps ops c w = (Outcome.ret c1, w1)) :
    c1.Client = c.Client ∧ c1.Username = c.Username ∧ c1.Password = c.Password ∧
      (Op.UpdateAuthCookie ∉ ops → c1.Cookie = c.Cookie) := by
  induction ops generalizing c w with
  | nil =>
    simp only [runOps, Go.pure, Prod.mk.injEq, Outcome.ret.injEq] at h
    simp [h.1]
  | cons op ops ih =>
    obtain ⟨c0, w0, hop, hrest⟩ := bind_returns _ _ _ _ _ h
    obtain ⟨k1, k2, k3, k4⟩ := Op.run_keeps op c c0 w w0 hop
    obtain ⟨r1, r2, r3, r4⟩ := ih c0 w0 hrest
    refine ⟨r1.trans k1, r2.trans k2, r3.trans k3, fun hnot => ?_⟩
    have hne : op ≠ Op.UpdateAuthCookie := fun e => hnot (by simp [e])
    have hno : Op.UpdateAuthCookie ∉ ops := fun hin => hnot (List.mem_cons_of_mem _ hin)
    rw [r4 hno, k4 hne]

/-! ### The claims -/

/-- C1: when the login response (the answer to the login request of the
client concerned, with a nil transport error) carries at least one cookie
named `peloton_session_id`, `GetInitialAuthCookie` returns, with a nil error,
a non-null cookie that is the last cookie of the response's list with that
name; and when the client is the one `NewApiClient` configures, the client
`NewApiClient` returns holds that cookie. -/
theorem C1_session_cookie_is_last_of_that_name (w : World m σ) (c : resty.Client)
    (u p : String) (resp : resty.Response m)
    (hreply : (w.roundTrip w.net (loginRequest c u p)).1 = (some resp, none))
    (hmem : ∃ k ∈ resp.Cookies, k.Name = "peloton_session_id") :
    ∃ ck, (resp.Cookies.filter fun k => k.Name = "peloton_session_id").getLast? = some ck ∧
      (GetInitialAuthCookie c u p w).1 = Outcome.ret (some ck, none) ∧
      (c = hostClient w →
        ∀ args, (args = [Arg.string u, Arg.string p] ∨ (args.length ≠ 2 ∧ u = "" ∧ p = "")) →
          ∃ cl, (NewApiClient args w).1 = Outcome.ret (cl, none) ∧ cl.Cookie = some ck) := by
  obtain ⟨k, hk, hname⟩ := hmem
  have hne : (resp.Cookies.filter fun k => k.Name = "peloton_session_id") ≠ [] :=
    List.ne_nil_of_mem (List.mem_filter.mpr ⟨hk, by simpa using hname⟩)
  obtain ⟨ck, hck⟩ := Option.isSome_iff_exists.mp (List.getLast?_isSome.mpr hne)
  have hscan : scanCookies resp.Cookies = some ck := by rw [scanCookies_eq_getLast?, hck]
  refine ⟨ck, hck, ?_, fun hc args hargs => ?_⟩
  · simp only [GetInitialAuthCookie_run, hreply, hscan]
  · subst hc
    simp only [NewApiClient_run args u p w hargs, hreply, hscan]
    exact ⟨_, rfl, rfl⟩

/-- C1 at the mocked login response with the single cookie
`peloton_session_id=abc123`: the constructed client holds that cookie. -/
theorem C1_session_cookie_is_last_of_that_name_witness :
    ∃ cl, (NewApiClient [Arg.string "u", Arg.string "p"]
        (mockWorld (some ⟨200, [⟨"peloton_session_id", "abc123"⟩]⟩) none none)).1
          = Outcome.ret (cl, none) ∧
      cl.Cookie = some ⟨"peloton_session_id", "abc123"⟩ := by
  obtain ⟨ck, hck, -, hnew⟩ := C1_session_cookie_is_last_of_that_name
    (mockWorld (some ⟨200, [⟨"peloton_session_id", "abc123"⟩]⟩) none none)
    (hostClient (mockWorld (some ⟨200, [⟨"peloton_session_id", "abc123"⟩]⟩) none none)) "u" "p"
    _ rfl ⟨⟨"peloton_session_id", "abc123"⟩, by simp [resty.Response.Cookies], rfl⟩
  have hck2 : ck = ⟨"peloton_session_id", "abc123"⟩ := by
    simpa [resty.Response.Cookies] using hck.symm
  subst hck2
  exact hnew rfl _ (Or.inl rfl)

/-- C2: when the login response (the answer to the login request of the
client concerned, with a nil transport error) carries no cookie named
`peloton_session_id` (its list may be empty), `GetInitialAuthCookie` returns a
null cookie with a nil error; and when the client is the one `NewApiClient`
configures, `NewApiClient` returns, with a nil error, a client whose `Cookie`
is null. -/
theorem C2_no_session_cookie_gives_null (w : World m σ) (c : resty.Client) (u p : String)
    (resp : resty.Response m)
    (hreply : (w.roundTrip w.net (loginRequest c u p)).1 = (some resp, none))
    (hnone : ∀ k ∈ resp.Cookies, k.Name ≠ "peloton_session_id") :
    (GetInitialAuthCookie c u p w).1 = Outcome.ret (none, none) ∧
      (c = hostClient w →
        ∀ args, (args = [Arg.string u, Arg.string p] ∨ (args.length ≠ 2 ∧ u = "" ∧ p = "")) →
          ∃ cl, (NewApiClient args w).1 = Outcome.ret (cl, none) ∧ cl.Cookie = none) := by
  have hfilter : (resp.Cookies.filter fun k => k.Name = "peloton_session_id") = [] :=
    List.filter_eq_nil_iff.mpr fun k hk => by simpa using hnone k hk
  have hscan : scanCookies resp.Cookies = none := by rw [scanCookies_eq_getLast?, hfilter]; rfl
  refine ⟨?_, fun hc args hargs => ?_⟩
  · simp only [GetInitialAuthCookie_run, hreply, hscan]
  · subst hc
    simp only [NewApiClient_run args u p w hargs, hreply, hscan]
    exact ⟨_, rfl, rfl⟩

/-- C2 at a mocked login response whose only cookie has another name, for a
client constructed without arguments. -/
theorem C2_no_session_cookie_gives_null_witness :
    ∃ cl, (NewApiClient [] (mockWorld (some ⟨200, [⟨"other", "x"⟩]⟩) none none)).1
        = Outcome.ret (cl, none) ∧ cl.Cookie = none :=
  (C2_no_session_cookie_gives_null (mockWorld (some ⟨200, [⟨"other", "x"⟩]⟩) none none)
    (hostClient (mockWorld (some ⟨200, [⟨"other", "x"⟩]⟩) none none)) "" ""
    _ rfl (by decide)).2 rfl [] (Or.inr ⟨by decide, rfl, rfl⟩)

/-- C3: `NewApiClient` called with exactly two strings `u` and `p` performs the
login exchange with `u` and `p` and returns a client that stores them
verbatim; called with any other number of arguments it does the same with two
empty strings.  The exchange is one request, a POST of `/auth/login` whose
body is the text `{"username_or_email": "u", "password": "p"}`, sent whatever
its outcome; the client is returned whenever the transport answers that
request without error. -/
theorem C3_credentials_stored_and_sent (w : World m σ) (args : List Arg) (u p : String)
    (hargs : args = [Arg.string u, Arg.string p] ∨ (args.length ≠ 2 ∧ u = "" ∧ p = "")) :
    ∃ req, (NewApiClient args w).2.sent = w.sent ++ [req] ∧
      req.Method = "POST" ∧ req.URL = "/auth/login" ∧
      req.Body = some ("\x7b\"username_or_email\": \"" ++ u ++ "\", \"password\": \"" ++ p
        ++ "\"\x7d") ∧
      (∀ cl e, (NewApiClient args w).1 = Outcome.ret (cl, e) →
        cl.Username = u ∧ cl.Password = p) ∧
      (∀ resp, (w.roundTrip w.net req).1 = (some resp, none) →
        ∃ cl, (NewApiClient args w).1 = Outcome.ret (cl, none) ∧
          cl.Username = u ∧ cl.Password = p) := by
  rw [NewApiClient_run args u p w hargs]
  refine ⟨loginRequest (hostClient w) u p, rfl, rfl, rfl, rfl, fun cl e h => ?_,
    fun resp hresp => ?_⟩
  · simp only at h
    split at h <;> cases h
    exact ⟨rfl, rfl⟩
  · simp only [hresp]
    exact ⟨_, rfl, rfl, rfl⟩

/-- C3 at three arguments: one login request is sent, its body carries two
empty strings. -/
theorem C3_credentials_stored_and_sent_witness :
    ∃ req, (NewApiClient [Arg.string "a", Arg.string "b", Arg.string "c"]
        (mockWorld (some ⟨200, []⟩) none none)).2.sent = [req] ∧
      req.Body = some "\x7b\"username_or_email\": \"\", \"password\": \"\"\x7d" := by
  obtain ⟨req, h1, -, -, h2, -, -⟩ :=
    C3_credentials_stored_and_sent (mockWorld (some ⟨200, []⟩) none none)
      [Arg.string "a", Arg.string "b", Arg.string "c"] "" "" (Or.inr ⟨by decide, rfl, rfl⟩)
  exact ⟨req, h1, h2⟩

/-- C4: `UpdateAuthCookie` performs the login exchange with the client's
stored `Username` and `Password`: it sends one request, a POST of
`/auth/login` by the client's resty client whose body is the text
`{"username_or_email": "<Username>", "password": "<Password>"}`.  For every
login response (an answer to that request with a nil transport error) it
stores the cookie that exchange yields, the last `peloton_session_id` cookie
of the response or null, in the client's `Cookie` field, the other fields
untouched, and returns that same cookie with a nil error. -/
theorem C4_refresh_uses_stored_credentials (c : ApiClient) (w : World m σ) :
    ∃ req, (c.UpdateAuthCookie w).2.sent = w.sent ++ [req] ∧
      req.client = c.Client ∧ req.Method = "POST" ∧ req.URL = "/auth/login" ∧
      req.Body = some ("\x7b\"username_or_email\": \"" ++ c.Username ++ "\", \"password\": \""
        ++ c.Password ++ "\"\x7d") ∧
      (∀ resp, (w.roundTrip w.net req).1 = (some resp, none) →
        ∃ cookie,
          cookie = (resp.Cookies.filter fun k => k.Name = "peloton_session_id").getLast? ∧
          (GetInitialAuthCookie c.Client c.Username c.Password w).1
            = Outcome.ret (cookie, none) ∧
          (c.UpdateAuthCookie w).1
            = Outcome.ret ((cookie, none), { c with Cookie := cookie })) := by
  refine ⟨loginRequest c.Client c.Username c.Password, ?_, rfl, rfl, rfl, rfl,
    fun resp hresp => ⟨scanCookies resp.Cookies, scanCookies_eq_getLast? _, ?_, ?_⟩⟩
  · rw [UpdateAuthCookie_run]
    rfl
  · simp only [GetInitialAuthCookie_run, hresp]
  · simp only [UpdateAuthCookie_run, hresp]

/-- C4 on a client that holds a cookie, refreshed against a login response
without cookies: the request carries the stored credentials and the cookie
field becomes null. -/
theorem C4_refresh_uses_stored_credentials_witness :
    ∃ req,
      ((ApiClient.mk ⟨"h"⟩ "u" "p" (some ⟨"peloton_session_id", "old"⟩)).UpdateAuthCookie
        (mockWorld (some ⟨200, []⟩) none none)).2.sent = [req] ∧
      req.Body = some "\x7b\"username_or_email\": \"u\", \"password\": \"p\"\x7d" ∧
      ((ApiClient.mk ⟨"h"⟩ "u" "p" (some ⟨"peloton_session_id", "old"⟩)).UpdateAuthCookie
        (mockWorld (some ⟨200, []⟩) none none)).1
          = Outcome.ret ((none, none), ApiClient.mk ⟨"h"⟩ "u" "p" none) := by
  obtain ⟨req, h1, hcl, hm, hu, h2, h3⟩ := C4_refresh_uses_stored_credentials
    (ApiClient.mk ⟨"h"⟩ "u" "p" (some ⟨"peloton_session_id", "old"⟩))
    (mockWorld (some ⟨200, []⟩) none none)
  refine ⟨req, h1, ?_, ?_⟩
  · rw [h2]; decide
  · obtain ⟨cookie, hc, -, hup⟩ := h3 ⟨req, some ⟨200, []⟩⟩ rfl
    have hnone : cookie = none := by rw [hc]; rfl
    subst hnone
    exact hup

/-- C5: over any sequence of calls of the five methods that returns, the
client's `Username` and `Password` (and its resty client) are those it started
with, and if the sequence contains no `UpdateAuthCookie`, its `Cookie` is
unchanged as well. -/
theorem C5_credentials_immutable (ops : List Op) (c c1 : ApiClient) (w w1 : World m σ)
    (h : runOps ops c w = (Outcome.ret c1, w1)) :
    c1.Username = c.Username ∧ c1.Password = c.Password ∧
      (Op.UpdateAuthCookie ∉ ops → c1.Cookie = c.Cookie) :=
  let ⟨_, h2, h3, h4⟩ := runOps_keeps ops c c1 w w1 h
  ⟨h2, h3, h4⟩

/-- C5 on a concrete run: a read, a refresh that sets a cookie, and two more
reads return a client with the credentials it started with. -/
theorem C5_credentials_immutable_witness :
    (runOps [Op.Me, Op.UpdateAuthCookie, Op.GetUserWorkouts "42", Op.GetInstructors]
        (ApiClient.mk ⟨"h"⟩ "u" "p" none)
        (mockWorld (some ⟨200, [⟨"peloton_session_id", "abc123"⟩]⟩) none none)).1
      = Outcome.ret (ApiClient.mk ⟨"h"⟩ "u" "p" (some ⟨"peloton_session_id", "abc123"⟩)) ∧
    (ApiClient.mk ⟨"h"⟩ "u" "p" (some ⟨"peloton_session_id", "abc123"⟩)).Username = "u" ∧
    (ApiClient.mk ⟨"h"⟩ "u" "p" (some ⟨"peloton_session_id", "abc123"⟩)).Password = "p" :=
  ⟨rfl,
   (C5_credentials_immutable
      [Op.Me, Op.UpdateAuthCookie, Op.GetUserWorkouts "42", Op.GetInstructors]
      (ApiClient.mk ⟨"h"⟩ "u" "p" none)
      (ApiClient.mk ⟨"h"⟩ "u" "p" (some ⟨"peloton_session_id", "abc123"⟩))
      (mockWorld (some ⟨200, [⟨"peloton_session_id", "abc123"⟩]⟩) none none) _
      (Prod.ext rfl rfl)).1,
   (C5_credentials_immutable
      [Op.Me, Op.UpdateAuthCookie, Op.GetUserWorkouts "42", Op.GetInstructors]
      (ApiClient.mk ⟨"h"⟩ "u" "p" none)
      (ApiClient.mk ⟨"h"⟩ "u" "p" (some ⟨"peloton_session_id", "abc123"⟩))
      (mockWorld (some ⟨200, [⟨"peloton_session_id", "abc123"⟩]⟩) none none) _
      (Prod.ext rfl rfl)).2.1⟩

/-- C9 at the failing input: the login response has status 401 (an error
status, no transport error) and sets `peloton_session_id=abc123`;
`GetInitialAuthCookie` returns that cookie, and `NewApiClient` and
`UpdateAuthCookie` store it. -/
theorem C9_error_status_keeps_cookie :
    resty.Response.IsError (m := mockModels)
        ⟨loginRequest ⟨"h"⟩ "u" "p", some ⟨401, [⟨"peloton_session_id", "abc123"⟩]⟩⟩ = true ∧
    (GetInitialAuthCookie ⟨"h"⟩ "u" "p"
        (mockWorld (some ⟨401, [⟨"peloton_session_id", "abc123"⟩]⟩) none none)).1
      = Outcome.ret (some ⟨"peloton_session_id", "abc123"⟩, none) ∧
    (NewApiClient [Arg.string "u", Arg.string "p"]
        (mockWorld (some ⟨401, [⟨"peloton_session_id", "abc123"⟩]⟩) none none)).1
      = Outcome.ret (ApiClient.mk ⟨"https://api.onepeloton.com"⟩ "u" "p"
          (some ⟨"peloton_session_id", "abc123"⟩), none) ∧
    ((ApiClient.mk ⟨"h"⟩ "u" "p" none).UpdateAuthCookie
        (mockWorld (some ⟨401, [⟨"peloton_session_id", "abc123"⟩]⟩) none none)).1
      = Outcome.ret ((some ⟨"peloton_session_id", "abc123"⟩, none),
          ApiClient.mk ⟨"h"⟩ "u" "p" (some ⟨"peloton_session_id", "abc123"⟩)) :=
  ⟨by decide, rfl, rfl, rfl⟩

/-- C10: whatever the transport answers to the GET (any status, any error
value, as long as there is a response object, whose attached result resty
leaves of the type that was set), each of `Me`, `GetInstructors`,
`GetUserWorkouts` and `GetWorkoutDetails` returns a nil error and the record
attached to the request, which is the zero-valued record when the response
carries the request as it was sent; and none of the four ever returns a
non-nil error. -/
theorem C10_reads_return_result_and_nil_error (c : ApiClient) (w : World m σ)
    (userid workoutId interval : String) :
    ((∀ resp err u,
        (w.roundTrip w.net (readRequest c.Client (resty.ResultValue.User m.zeroUser)
          "/api/me")).1 = (some resp, err) →
        resp.Result = resty.ResultValue.User u → (c.Me w).1 = Outcome.ret ((u, none), c)) ∧
      (∀ resp err,
        (w.roundTrip w.net (readRequest c.Client (resty.ResultValue.User m.zeroUser)
          "/api/me")).1 = (some resp, err) →
        resp.Request = readRequest c.Client (resty.ResultValue.User m.zeroUser) "/api/me" →
        (c.Me w).1 = Outcome.ret ((m.zeroUser, none), c)) ∧
      (∀ r w1, c.Me w = (Outcome.ret r, w1) → r.1.2 = none)) ∧
    ((∀ resp err i,
        (w.roundTrip w.net (readRequest c.Client (resty.ResultValue.Instructors m.zeroInstructors)
          "/api/instructor")).1 = (some resp, err) →
        resp.Result = resty.ResultValue.Instructors i →
        (c.GetInstructors w).1 = Outcome.ret ((i, none), c)) ∧
      (∀ resp err,
        (w.roundTrip w.net (readRequest c.Client (resty.ResultValue.Instructors m.zeroInstructors)
          "/api/instructor")).1 = (some resp, err) →
        resp.Request = readRequest c.Client (resty.ResultValue.Instructors m.zeroInstructors)
          "/api/instructor" →
        (c.GetInstructors w).1 = Outcome.ret ((m.zeroInstructors, none), c)) ∧
      (∀ r w1, c.GetInstructors w = (Outcome.ret r, w1) → r.1.2 = none)) ∧
    ((∀ resp err ws,
        (w.roundTrip w.net (readRequest c.Client (resty.ResultValue.Workouts m.zeroWorkouts)
          ("/api/user/" ++ userid ++ "/workouts"))).1 = (some resp, err) →
        resp.Result = resty.ResultValue.Workouts ws →
        (c.GetUserWorkouts userid w).1 = Outcome.ret ((ws, none), c)) ∧
      (∀ resp err,
        (w.roundTrip w.net (readRequest c.Client (resty.ResultValue.Workouts m.zeroWorkouts)
          ("/api/user/" ++ userid ++ "/workouts"))).1 = (some resp, err) →
        resp.Request = readRequest c.Client (resty.ResultValue.Workouts m.zeroWorkouts)
          ("/api/user/" ++ userid ++ "/workouts") →
        (c.GetUserWorkouts userid w).1 = Outcome.ret ((m.zeroWorkouts, none), c)) ∧
      (∀ r w1, c.GetUserWorkouts userid w = (Outcome.ret r, w1) → r.1.2 = none)) ∧
    ((∀ resp err d,
        (w.roundTrip w.net (readRequest c.Client
          (resty.ResultValue.WorkOutDetails m.zeroWorkOutDetails)
          ("/api/workout/" ++ workoutId ++ "/performance_graph?every_n=" ++ interval))).1
            = (some resp, err) →
        resp.Result = resty.ResultValue.WorkOutDetails d →
        (c.GetWorkoutDetails workoutId interval w).1 = Outcome.ret ((d, none), c)) ∧
      (∀ resp err,
        (w.roundTrip w.net (readRequest c.Client
          (resty.ResultValue.WorkOutDetails m.zeroWorkOutDetails)
          ("/api/workout/" ++ workoutId ++ "/performance_graph?every_n=" ++ interval))).1
            = (some resp, err) →
        resp.Request = readRequest c.Client
          (resty.ResultValue.WorkOutDetails m.zeroWorkOutDetails)
          ("/api/workout/" ++ workoutId ++ "/performance_graph?every_n=" ++ interval) →
        (c.GetWorkoutDetails workoutId interval w).1
          = Outcome.ret ((m.zeroWorkOutDetails, none), c)) ∧
      (∀ r w1, c.GetWorkoutDetails workoutId interval w = (Outcome.ret r, w1) →
        r.1.2 = none)) := by
  refine ⟨⟨fun resp err u h hres => ?_, fun resp err h hreq => ?_, fun r w1 h => ?_⟩,
    ⟨fun resp err i h hres => ?_, fun resp err h hreq => ?_, fun r w1 h => ?_⟩,
    ⟨fun resp err ws h hres => ?_, fun resp err h hreq => ?_, fun r w1 h => ?_⟩,
    ⟨fun resp err d h hres => ?_, fun resp err h hreq => ?_, fun r w1 h => ?_⟩⟩
  · simp only [Me_run, h, hres]
  · have hres : resp.Result = resty.ResultValue.User m.zeroUser := by
      rw [resty.Response.Result, hreq]; rfl
    simp only [Me_run, h, hres]
  · exact (Me_returns c w w1 r h).1
  · simp only [GetInstructors_run, h, hres]
  · have hres : resp.Result = resty.ResultValue.Instructors m.zeroInstructors := by
      rw [resty.Response.Result, hreq]; rfl
    simp only [GetInstructors_run, h, hres]
  · exact (GetInstructors_returns c w w1 r h).1
  · simp only [GetUserWorkouts_run, h, hres]
  · have hres : resp.Result = resty.ResultValue.Workouts m.zeroWorkouts := by
      rw [resty.Response.Result, hreq]; rfl
    simp only [GetUserWorkouts_run, h, hres]
  · exact (GetUserWorkouts_returns c userid w w1 r h).1
  · simp only [GetWorkoutDetails_run, h, hres]
  · have hres : resp.Result = resty.ResultValue.WorkOutDetails m.zeroWorkOutDetails := by
      rw [resty.Response.Result, hreq]; rfl
    simp only [GetWorkoutDetails_run, h, hres]
  · exact (GetWorkoutDetails_returns c workoutId interval w w1 r h).1

/-- C10 on three outcomes of the GET of `Me`: a 500 response, into which
nothing is decoded, gives the zero record and a nil error; so does a transport
error that comes with a response object; a 200 response decoded to `"alice"`
gives that record and a nil error. -/
theorem C10_reads_return_result_and_nil_error_witness :
    ((ApiClient.mk ⟨"h"⟩ "u" "p" none).Me (mockWorld (some ⟨500, []⟩) none none)).1
        = Outcome.ret (("", none), ApiClient.mk ⟨"h"⟩ "u" "p" none) ∧
    ((ApiClient.mk ⟨"h"⟩ "u" "p" none).Me (mockWorld none (some ⟨"dial tcp: timeout"⟩) none)).1
        = Outcome.ret (("", none), ApiClient.mk ⟨"h"⟩ "u" "p" none) ∧
    ((ApiClient.mk ⟨"h"⟩ "u" "p" none).Me
        (mockWorld (some ⟨200, []⟩) none (some (resty.ResultValue.User "alice")))).1
        = Outcome.ret (("alice", none), ApiClient.mk ⟨"h"⟩ "u" "p" none) :=
  ⟨(C10_reads_return_result_and_nil_error (ApiClient.mk ⟨"h"⟩ "u" "p" none)
      (mockWorld (some ⟨500, []⟩) none none) "42" "99" "5").1.2.1 _ _ rfl rfl,
   (C10_reads_return_result_and_nil_error (ApiClient.mk ⟨"h"⟩ "u" "p" none)
      (mockWorld none (some ⟨"dial tcp: timeout"⟩) none) "42" "99" "5").1.2.1 _ _ rfl rfl,
   (C10_reads_return_result_and_nil_error (ApiClient.mk ⟨"h"⟩ "u" "p" none)
      (mockWorld (some ⟨200, []⟩) none (some (resty.ResultValue.User "alice"))) "42" "99" "5").1.1
        _ _ "alice" rfl rfl⟩

end peloton

/-! ### The login body as JSON -/

namespace json

theorem plain_iff {c : Char} : plain c = true ↔ c ≠ '"' ∧ c ≠ '\\' ∧ 0x20 ≤ c.toNat := by
  simp [plain, and_assoc]

theorem unquoteFuel_plain (s rest : List Char) (hs : ∀ c ∈ s, plain c = true) (fuel : Nat)
    (hfuel : s.length + 1 ≤ fuel) :
    unquoteFuel fuel (s ++ '"' :: rest) = some (s, rest) := by
  induction s generalizing fuel with
  | nil =>
    obtain ⟨f, rfl⟩ : ∃ f, fuel = f + 1 := ⟨fuel - 1, by simp at hfuel; omega⟩
    simp [unquoteFuel]
  | cons c s ih =>
    obtain ⟨f, rfl⟩ : ∃ f, fuel = f + 1 := ⟨fuel - 1, by simp at hfuel; omega⟩
    obtain ⟨h1, h2, h3⟩ := plain_iff.mp (hs c (List.mem_cons_self _ _))
    have ih1 := ih (fun d hd => hs d (List.mem_cons_of_mem _ hd)) f (by simp at hfuel; omega)
    simp [unquoteFuel, h1, h2, Nat.not_lt.mpr h3, ih1, push]

theorem unquote_plain (s rest : List Char) (hs : ∀ c ∈ s, plain c = true) :
    unquote (s ++ '"' :: rest) = some (s, rest) :=
  unquoteFuel_plain s rest hs _ (by simp)

theorem stringMember_plain (k v rest : List Char) (hk : ∀ c ∈ k, plain c = true)
    (hv : ∀ c ∈ v, plain c = true) :
    stringMember ('"' :: (k ++ '"' :: ':' :: ' ' :: '"' :: (v ++ '"' :: rest)))
      = some ((String.mk k, String.mk v), rest) := by
  have e1 : ∀ X : List Char, skipWhitespace ('"' :: X) = '"' :: X := fun X => by
    simp [skipWhitespace, isWhitespace]
  have e2 : ∀ X : List Char, skipWhitespace (':' :: X) = ':' :: X := fun X => by
    simp [skipWhitespace, isWhitespace]
  have e3 : ∀ X : List Char, skipWhitespace (' ' :: '"' :: X) = '"' :: X := fun X => by
    simp [skipWhitespace, isWhitespace]
  simp only [stringMember, e1, stringLiteral, unquote_plain k _ hk, Option.map, e2, e3,
    unquote_plain v _ hv]

end json

namespace peloton

variable {m : Models} {σ : Type}

theorem authData_data (u p : String) :
    (authData u p).data =
      '\x7b' :: '"' :: ("username_or_email".data ++ '"' :: ':' :: ' ' :: '"' :: (u.data ++
        '"' :: ',' :: ' ' :: '"' :: ("password".data ++ '"' :: ':' :: ' ' :: '"' :: (p.data ++
          ['"', '\x7d'])))) := by
  simp [authData, fmt.Sprintf, fmt.sprintfAux, fmt.extra]

theorem twoStringMembers_authData (u p : String) (hu : ∀ c ∈ u.data, json.plain c = true)
    (hp : ∀ c ∈ p.data, json.plain c = true) :
    json.twoStringMembers (authData u p)
      = some (("username_or_email", u), ("password", p)) := by
  have hk1 : ∀ c ∈ "username_or_email".data, json.plain c = true := by decide
  have hk2 : ∀ c ∈ "password".data, json.plain c = true := by decide
  have e1 : ∀ X : List Char, json.skipWhitespace ('\x7b' :: X) = '\x7b' :: X := fun X => by
    simp [json.skipWhitespace, json.isWhitespace]
  have e2 : ∀ X : List Char, json.skipWhitespace (',' :: ' ' :: X) = ',' :: ' ' :: X := fun X => by
    simp [json.skipWhitespace, json.isWhitespace]
  have e3 : ∀ X : List Char, json.skipWhitespace ('\x7d' :: X) = '\x7d' :: X := fun X => by
    simp [json.skipWhitespace, json.isWhitespace]
  have e4 : ∀ X : List Char, json.stringMember (' ' :: X) = json.stringMember X := fun X => by
    simp [json.stringMember, json.skipWhitespace, json.isWhitespace]
  unfold json.twoStringMembers
  rw [authData_data]
  simp only [e1, json.stringMember_plain _ _ _ hk1 hu, e2, e4,
    json.stringMember_plain _ _ _ hk2 hp, e3]
  rfl

end peloton

/-! ### The query of the workout-details URL -/

namespace url

theorem cut_of_not_mem (sep : Char) (s : List Char) (hs : sep ∉ s) : cut sep s = (s, none) := by
  induction s with
  | nil => rfl
  | cons c s ih =>
    have hc : c ≠ sep := fun e => hs (by simp [e])
    have hs1 : sep ∉ s := fun h => hs (List.mem_cons_of_mem _ h)
    simp [cut, hc, ih hs1]

theorem cut_append (sep : Char) (s rest : List Char) (hs : sep ∉ s) :
    cut sep (s ++ sep :: rest) = (s, some rest) := by
  induction s with
  | nil => simp [cut]
  | cons c s ih =>
    have hc : c ≠ sep := fun e => hs (by simp [e])
    have hs1 : sep ∉ s := fun h => hs (List.mem_cons_of_mem _ h)
    simp [cut, hc, ih hs1]

theorem splitOn_of_not_mem (sep : Char) (s : List Char) (hs : sep ∉ s) : splitOn sep s = [s] := by
  induction s with
  | nil => rfl
  | cons c s ih =>
    have hc : c ≠ sep := fun e => hs (by simp [e])
    have hs1 : sep ∉ s := fun h => hs (List.mem_cons_of_mem _ h)
    simp [splitOn, hc, ih hs1]

theorem unescape_of_no_escape (s : List Char) (h1 : '%' ∉ s) (h2 : '+' ∉ s) :
    unescape s = some (bytes s) := by
  induction s with
  | nil => rfl
  | cons c s ih =>
    have hc1 : c ≠ '%' := fun e => h1 (by simp [e])
    have hc2 : c ≠ '+' := fun e => h2 (by simp [e])
    have ih1 := ih (fun h => h1 (List.mem_cons_of_mem _ h)) (fun h => h2 (List.mem_cons_of_mem _ h))
    have key : unescape (c :: s) = (unescape s).map fun bs => utf8 c ++ bs := by
      conv_lhs => unfold unescape
      simp [hc1, hc2]
    rw [key, ih1]
    rfl

theorem bytes_append (a b : List Char) : bytes (a ++ b) = bytes a ++ bytes b := by
  induction a with
  | nil => rfl
  | cons c a ih => simp [bytes, ih]

theorem containsCTL_append (a b : List Char) :
    containsCTL (a ++ b) = (containsCTL a || containsCTL b) := by
  simp [containsCTL]

theorem unescapePath_cons (c : Char) (s : List Char) (hc : c ≠ '%') :
    unescapePath (c :: s) = (unescapePath s).map fun bs => utf8 c ++ bs := by
  conv_lhs => unfold unescapePath
  simp [hc]

theorem unescapePath_percent (a b : Char) (s : List Char) :
    unescapePath ('%' :: a :: b :: s) =
      match json.hexDigit a, json.hexDigit b with
      | some x, some y => (unescapePath s).map fun bs => (x * 16 + y) :: bs
      | _, _ => none := by
  conv_lhs => unfold unescapePath
  simp

theorem unescapePath_of_no_percent (s : List Char) (h : '%' ∉ s) :
    unescapePath s = some (bytes s) := by
  induction s with
  | nil => rfl
  | cons c s ih =>
    have hc : c ≠ '%' := fun e => h (by simp [e])
    rw [unescapePath_cons c s hc, ih (fun hs => h (List.mem_cons_of_mem _ hs))]
    rfl

theorem unescapePath_append_aux (n : Nat) :
    ∀ (a b : List Char) (x : List Nat), a.length ≤ n → unescapePath a = some x →
      unescapePath (a ++ b) = (unescapePath b).map fun bs => x ++ bs := by
  induction n with
  | zero =>
    intro a b x hlen ha
    have : a = [] := List.length_eq_zero.mp (Nat.le_zero.mp hlen)
    subst this
    simp only [unescapePath, Option.some.injEq] at ha
    subst ha
    simp
  | succ n ih =>
    intro a b x hlen ha
    match a, ha, hlen with
    | [], ha, _ =>
      simp only [unescapePath, Option.some.injEq] at ha
      subst ha
      simp
    | c :: rest, ha, hlen =>
      by_cases hc : c = '%'
      · subst hc
        match rest, ha, hlen with
        | [], ha, _ => simp [unescapePath] at ha
        | [_], ha, _ => simp [unescapePath] at ha
        | a1 :: b1 :: rest2, ha, hlen =>
          rw [unescapePath_percent] at ha
          show unescapePath ('%' :: a1 :: b1 :: (rest2 ++ b)) = _
          rw [unescapePath_percent]
          cases hx : json.hexDigit a1 with
          | none => simp [hx] at ha
          | some v1 =>
            cases hy : json.hexDigit b1 with
            | none => simp [hx, hy] at ha
            | some v2 =>
              simp only [hx, hy] at ha ⊢
              cases hr : unescapePath rest2 with
              | none => simp [hr] at ha
              | some y =>
                simp only [hr, Option.map_some', Option.some.injEq] at ha
                subst ha
                rw [ih rest2 b y (by simp at hlen; omega) hr]
                cases unescapePath b <;> simp
      · rw [unescapePath_cons c rest hc] at ha
        show unescapePath (c :: (rest ++ b)) = _
        rw [unescapePath_cons c _ hc]
        cases hr : unescapePath rest with
        | none => simp [hr] at ha
        | some y =>
          simp only [hr, Option.map_some', Option.some.injEq] at ha
          subst ha
          rw [ih rest b y (by simp at hlen; omega) hr]
          cases unescapePath b <;> simp

theorem unescapePath_append (a b : List Char) (x : List Nat) (ha : unescapePath a = some x) :
    unescapePath (a ++ b) = (unescapePath b).map fun bs => x ++ bs :=
  unescapePath_append_aux a.length a b x (Nat.le_refl _) ha

/-- A text without `?`, `#`, `%` and control characters parses, when it is
rooted, to the path that is the text itself, without query and fragment. -/
theorem parseRooted_plain (t : List Char) (h1 : '?' ∉ t) (h2 : '#' ∉ t) (h3 : '%' ∉ t)
    (h4 : containsCTL t = false) :
    parseRooted t = ParseResult.ok { Path := bytes t, RawQuery := [], Fragment := [] } := by
  simp [parseRooted, cut_of_not_mem _ _ h2, h4, cut_of_not_mem _ _ h1,
    unescapePath_of_no_percent _ h3, unescapePath]

theorem parseQuery_every_n (i : List Char) (hi1 : '&' ∉ i) (hi2 : ';' ∉ i) (hi4 : '%' ∉ i)
    (hi5 : '+' ∉ i) :
    parseQuery ("every_n".data ++ '=' :: i) = [(bytes "every_n".data, bytes i)] := by
  have hamp : '&' ∉ "every_n".data ++ '=' :: i := by simp [hi1]
  have hsemi : ';' ∉ "every_n".data ++ '=' :: i := by simp [hi2]
  have hkey : '=' ∉ "every_n".data := by decide
  simp only [parseQuery, splitOn_of_not_mem _ _ hamp, List.filterMap_cons, List.filterMap_nil]
  simp only [parsePiece, hsemi, if_false, cut_append _ _ _ hkey, Option.getD,
    unescape_of_no_escape _ hi4 hi5]
  have hk : unescape ['e', 'v', 'e', 'r', 'y', '_', 'n']
      = some (bytes ['e', 'v', 'e', 'r', 'y', '_', 'n']) := by decide
  simp [hk]

/-- A reference that begins with `/` and goes on with another character is
parsed as a rooted reference. -/
theorem Parse_rooted (rawurl : String) (c : Char) (rest : List Char)
    (h : rawurl.data = '/' :: c :: rest) (hc : c ≠ '/') :
    Parse rawurl = parseRooted rawurl.data := by
  unfold Parse
  rw [h]
  split
  · next heq => simp at heq; exact absurd heq.1 hc
  · rfl
  · next hne => exact absurd rfl (hne (c :: rest))

/-- The path of `"/api/user/" ++ s ++ "/workouts"`. -/
theorem Parse_userWorkouts (s : String) (h1 : '?' ∉ s.data) (h2 : '#' ∉ s.data)
    (h3 : '%' ∉ s.data) (h4 : containsCTL s.data = false) :
    Parse ("/api/user/" ++ s ++ "/workouts") =
      ParseResult.ok
        { Path := bytes ("/api/user/" ++ s ++ "/workouts").data, RawQuery := [], Fragment := [] } := by
  have hdata : ("/api/user/" ++ s ++ "/workouts").data
      = "/api/user/".data ++ (s.data ++ "/workouts".data) := by simp
  rw [Parse_rooted _ 'a' ("pi/user/".data ++ (s.data ++ "/workouts".data)) (by simp) (by decide)]
  rw [hdata]
  apply parseRooted_plain
  · simp [h1]
  · simp [h2]
  · simp [h3]
  · have hp : containsCTL "/api/user/".data = false := by decide
    have hs : containsCTL "/workouts".data = false := by decide
    rw [containsCTL_append, containsCTL_append, hp, h4, hs]
    rfl

/-- The query of `"/api/workout/" ++ id ++ "/performance_graph?every_n=" ++ interval`. -/
theorem queryParameters_workoutDetails (workoutId interval : String)
    (hw1 : '?' ∉ workoutId.data) (hw2 : '#' ∉ workoutId.data)
    (hw3 : containsCTL workoutId.data = false) (hw4 : (unescapePath workoutId.data).isSome = true)
    (hi1 : '&' ∉ interval.data) (hi2 : ';' ∉ interval.data) (hi3 : '#' ∉ interval.data)
    (hi4 : '%' ∉ interval.data) (hi5 : '+' ∉ interval.data)
    (hi6 : containsCTL interval.data = false) :
    queryParameters ("/api/workout/" ++ workoutId ++ "/performance_graph?every_n=" ++ interval)
      = some [(bytes "every_n".data, bytes interval.data)] := by
  have hdata : ("/api/workout/" ++ workoutId ++ "/performance_graph?every_n=" ++ interval).data
      = ("/api/workout/".data ++ (workoutId.data ++ "/performance_graph".data)) ++
          '?' :: ("every_n".data ++ '=' :: interval.data) := by
    simp
  have hfrag : '#' ∉ ("/api/workout/".data ++ (workoutId.data ++ "/performance_graph".data)) ++
      '?' :: ("every_n".data ++ '=' :: interval.data) := by
    simp [hw2, hi3]
  have hpath : '?' ∉ "/api/workout/".data ++ (workoutId.data ++ "/performance_graph".data) := by
    simp [hw1]
  have hctl : containsCTL (("/api/workout/".data ++ (workoutId.data ++ "/performance_graph".data))
      ++ '?' :: ("every_n".data ++ '=' :: interval.data)) = false := by
    have hp : containsCTL "/api/workout/".data = false := by decide
    have hs : containsCTL "/performance_graph".data = false := by decide
    have hq : containsCTL ('?' :: "every_n".data ++ ['=']) = false := by decide
    have e : '?' :: ("every_n".data ++ '=' :: interval.data)
        = ('?' :: "every_n".data ++ ['=']) ++ interval.data := by simp
    rw [e, containsCTL_append, containsCTL_append, containsCTL_append, containsCTL_append,
      hp, hw3, hs, hq, hi6]
    rfl
  obtain ⟨x, hx⟩ := Option.isSome_iff_exists.mp hw4
  have hunesc : unescapePath ("/api/workout/".data ++ (workoutId.data ++ "/performance_graph".data))
      = some (bytes "/api/workout/".data ++ (x ++ bytes "/performance_graph".data)) := by
    rw [unescapePath_append _ _ _ (unescapePath_of_no_percent "/api/workout/".data (by decide)),
      unescapePath_append _ _ _ hx,
      unescapePath_of_no_percent "/performance_graph".data (by decide)]
    rfl
  unfold queryParameters
  rw [Parse_rooted _ 'a' ("pi/workout/".data ++ (workoutId.data ++
    ("/performance_graph?every_n=".data ++ interval.data))) (by simp) (by decide)]
  rw [hdata]
  have hnil : unescapePath [] = some [] := rfl
  simp only [parseRooted, cut_of_not_mem _ _ hfrag, hctl, cut_append _ _ _ hpath, hunesc,
    Option.getD, hnil]
  exact congrArg some (parseQuery_every_n _ hi1 hi2 hi4 hi5)

end url

namespace peloton

variable {m : Models} {σ : Type}

/-- C6, as amended: for every username and password the login exchange posts
to `/auth/login` the format text with the two strings inserted verbatim; when
neither string contains a double quote, a backslash or a control character,
that body is a well-formed JSON object with exactly the two fields
`username_or_email` and `password`, whose string values decode to exactly the
supplied username and password. -/
theorem C6_login_body_is_json_for_plain_credentials (c : resty.Client) (u p : String)
    (w : World m σ) :
    ∃ req body, (GetInitialAuthCookie c u p w).2.sent = w.sent ++ [req] ∧
      req.Method = "POST" ∧ req.URL = "/auth/login" ∧ req.Body = some body ∧
      body = "\x7b\"username_or_email\": \"" ++ u ++ "\", \"password\": \"" ++ p ++ "\"\x7d" ∧
      ((∀ ch ∈ u.data, json.plain ch = true) → (∀ ch ∈ p.data, json.plain ch = true) →
        json.twoStringMembers body = some (("username_or_email", u), ("password", p))) := by
  refine ⟨loginRequest c u p, _, ?_, rfl, rfl, rfl, rfl, ?_⟩
  · rw [GetInitialAuthCookie_run]
    rfl
  · rw [← authData_eq]
    exact twoStringMembers_authData u p

/-- C6 as amended, at `bob` / `s3cret`: the posted body decodes to the two
credentials. -/
theorem C6_login_body_is_json_for_plain_credentials_witness :
    ∃ req body,
      (GetInitialAuthCookie ⟨"h"⟩ "bob" "s3cret" (mockWorld (some ⟨200, []⟩) none none)).2.sent
        = [req] ∧
      req.Body = some body ∧
      json.twoStringMembers body = some (("username_or_email", "bob"), ("password", "s3cret")) := by
  obtain ⟨req, body, h1, -, -, h2, -, h3⟩ :=
    C6_login_body_is_json_for_plain_credentials ⟨"h"⟩ "bob" "s3cret"
      (mockWorld (some ⟨200, []⟩) none none)
  exact ⟨req, body, h1, h2, h3 (by decide) (by decide)⟩

/-- C6 fails as stated: with the username `a"b` the posted body is not a JSON
object of two string fields at all; with a raw line feed in the username it is
not one either; with the username `a\nb` (a backslash and an `n`) the body is
well-formed but its username decodes to `a`, line feed, `b`. -/
theorem C6_special_characters_counterexample :
    ((GetInitialAuthCookie ⟨"h"⟩ "a\"b" "pw" (mockWorld (some ⟨200, []⟩) none none)).2.sent.map
        fun req => req.Body)
      = [some "\x7b\"username_or_email\": \"a\"b\", \"password\": \"pw\"\x7d"] ∧
    json.twoStringMembers "\x7b\"username_or_email\": \"a\"b\", \"password\": \"pw\"\x7d" = none ∧
    json.twoStringMembers (authData "a\nb" "pw") = none ∧
    json.twoStringMembers (authData "a\\nb" "pw")
      = some (("username_or_email", "a\nb"), ("password", "pw")) ∧
    json.twoStringMembers (authData "a\\nb" "pw")
      ≠ some (("username_or_email", "a\\nb"), ("password", "pw")) :=
  ⟨by decide, by decide, by decide, by decide, by decide⟩

/-- C7, as amended: for every user id `s`, in every world, `GetUserWorkouts s`
hands resty exactly one request: a GET with the URL text
`"/api/user/" ++ s ++ "/workouts"` and the header `Accept: application/json`;
when `s` contains none of `?`, `#`, `%` and no control character, that URL
parses and its path is the concatenation, with no query and no fragment. -/
theorem C7_user_workouts_request (c : ApiClient) (s : String) (w : World m σ) :
    ∃ req, (c.GetUserWorkouts s w).2.sent = w.sent ++ [req] ∧
      req.Method = "GET" ∧ req.URL = "/api/user/" ++ s ++ "/workouts" ∧
      req.Header = [("Accept", "application/json")] ∧
      ('?' ∉ s.data → '#' ∉ s.data → '%' ∉ s.data → url.containsCTL s.data = false →
        url.Parse req.URL = url.ParseResult.ok
          { Path := url.bytes ("/api/user/" ++ s ++ "/workouts").data,
            RawQuery := [], Fragment := [] }) := by
  rw [GetUserWorkouts_run]
  exact ⟨_, rfl, rfl, rfl, rfl, url.Parse_userWorkouts s⟩

/-- C7 as amended, at the user id `42`: the path is `/api/user/42/workouts`. -/
theorem C7_user_workouts_request_witness :
    ∃ req, ((ApiClient.mk ⟨"h"⟩ "u" "p" none).GetUserWorkouts "42"
        (mockWorld (some ⟨200, []⟩) none none)).2.sent = [req] ∧
      req.Method = "GET" ∧ req.Header = [("Accept", "application/json")] ∧
      url.Parse req.URL = url.ParseResult.ok
        { Path := url.bytes "/api/user/42/workouts".data, RawQuery := [], Fragment := [] } := by
  obtain ⟨req, h1, h2, -, h3, h4⟩ := C7_user_workouts_request (ApiClient.mk ⟨"h"⟩ "u" "p" none)
    "42" (mockWorld (some ⟨200, []⟩) none none)
  exact ⟨req, h1, h2, h3, h4 (by decide) (by decide) (by decide) (by decide)⟩

/-- C7 fails as stated: with the user id `a?b` the URL text handed to resty is
`/api/user/a?b/workouts`, whose path is `/api/user/a` and whose query is
`b/workouts`; with `a#b` the path is `/api/user/a` as well; with `%41` the
path is `/api/user/A/workouts`; with `%zz` or a line feed the URL does not
parse, and behind resty's URL check no response comes back and the call
panics. -/
theorem C7_path_delimiters_counterexample :
    (((ApiClient.mk ⟨"h"⟩ "u" "p" none).GetUserWorkouts "a?b"
        (mockWorld (some ⟨200, []⟩) none none)).2.sent.map fun req => req.URL)
      = ["/api/user/a?b/workouts"] ∧
    url.Parse "/api/user/a?b/workouts" = url.ParseResult.ok
      { Path := url.bytes "/api/user/a".data, RawQuery := "b/workouts".data, Fragment := [] } ∧
    url.bytes "/api/user/a".data ≠ url.bytes ("/api/user/" ++ "a?b" ++ "/workouts").data ∧
    url.Parse ("/api/user/" ++ "a#b" ++ "/workouts") = url.ParseResult.ok
      { Path := url.bytes "/api/user/a".data, RawQuery := [],
        Fragment := url.bytes "b/workouts".data } ∧
    url.Parse ("/api/user/" ++ "%41" ++ "/workouts") = url.ParseResult.ok
      { Path := url.bytes "/api/user/A/workouts".data, RawQuery := [], Fragment := [] } ∧
    url.Parse ("/api/user/" ++ "%zz" ++ "/workouts") = url.ParseResult.error ∧
    url.Parse ("/api/user/" ++ "a\nb" ++ "/workouts") = url.ParseResult.error ∧
    ((ApiClient.mk ⟨"h"⟩ "u" "p" none).GetUserWorkouts "%zz"
        (restyWorld (some ⟨200, []⟩) none none)).1
      = Outcome.abort (Abort.runtimePanic "invalid memory address or nil pointer dereference") :=
  ⟨by decide, by decide, by decide, by decide, by decide, by decide, by decide, rfl⟩

/-- C8, as amended: for every workout id and interval, `GetWorkoutDetails`
hands resty one GET request whose URL text is
`"/api/workout/" ++ workoutId ++ "/performance_graph?every_n=" ++ interval`;
when the workout id contains neither `?` nor `#`, no control character and no
`%` that is not followed by two hexadecimal digits, and the interval contains
none of `&`, `;`, `#`, `%`, `+` and no control character, that URL parses and
its query has the single parameter `every_n` with value the interval. -/
theorem C8_workout_details_url (c : ApiClient) (workoutId interval : String) (w : World m σ) :
    ∃ req, (c.GetWorkoutDetails workoutId interval w).2.sent = w.sent ++ [req] ∧
      req.Method = "GET" ∧
      req.URL = "/api/workout/" ++ workoutId ++ "/performance_graph?every_n=" ++ interval ∧
      ('?' ∉ workoutId.data → '#' ∉ workoutId.data →
        url.containsCTL workoutId.data = false →
        (url.unescapePath workoutId.data).isSome = true →
        '&' ∉ interval.data → ';' ∉ interval.data → '#' ∉ interval.data →
        '%' ∉ interval.data → '+' ∉ interval.data →
        url.containsCTL interval.data = false →
        url.queryParameters req.URL
          = some [(url.bytes "every_n".data, url.bytes interval.data)]) := by
  rw [GetWorkoutDetails_run]
  exact ⟨_, rfl, rfl, rfl, url.queryParameters_workoutDetails workoutId interval⟩

/-- C8 as amended, at workout `99` and interval `5`. -/
theorem C8_workout_details_url_witness :
    ∃ req, ((ApiClient.mk ⟨"h"⟩ "u" "p" none).GetWorkoutDetails "99" "5"
        (mockWorld (some ⟨200, []⟩) none none)).2.sent = [req] ∧
      req.URL = "/api/workout/99/performance_graph?every_n=5" ∧
      url.queryParameters req.URL = some [(url.bytes "every_n".data, url.bytes "5".data)] := by
  obtain ⟨req, h1, -, h2, h3⟩ := C8_workout_details_url (ApiClient.mk ⟨"h"⟩ "u" "p" none) "99" "5"
    (mockWorld (some ⟨200, []⟩) none none)
  exact ⟨req, h1, h2, h3 (by decide) (by decide) (by decide) (by decide) (by decide) (by decide)
    (by decide) (by decide) (by decide) (by decide)⟩

/-- C8 fails as stated: with the interval `5&x=1` the URL is the
concatenation, but its query has the two parameters `every_n=5` and `x=1`;
with the workout id `9?9` the query starts inside the id and has no parameter
named `every_n`, with `9#9` there is no query at all; an interval `5#x` loses
its end to the fragment, `5;x` gives no parameter, and `a%20b` and `1+1` are
read as `a b` and `1 1`; with the workout id `%zz` or a line feed after the
interval the URL does not parse, and behind resty's URL check no response
comes back and the call panics. -/
theorem C8_query_delimiters_counterexample :
    (((ApiClient.mk ⟨"h"⟩ "u" "p" none).GetWorkoutDetails "99" "5&x=1"
        (mockWorld (some ⟨200, []⟩) none none)).2.sent.map fun req => req.URL)
      = ["/api/workout/99/performance_graph?every_n=5&x=1"] ∧
    url.queryParameters "/api/workout/99/performance_graph?every_n=5&x=1"
      = some [(url.bytes "every_n".data, url.bytes "5".data),
          (url.bytes "x".data, url.bytes "1".data)] ∧
    url.queryParameters "/api/workout/99/performance_graph?every_n=5&x=1"
      ≠ some [(url.bytes "every_n".data, url.bytes "5&x=1".data)] ∧
    url.queryParameters ("/api/workout/" ++ "9?9" ++ "/performance_graph?every_n=" ++ "5")
      = some [(url.bytes "9/performance_graph?every_n".data, url.bytes "5".data)] ∧
    url.queryParameters ("/api/workout/" ++ "9#9" ++ "/performance_graph?every_n=" ++ "5")
      = some [] ∧
    url.queryParameters ("/api/workout/" ++ "99" ++ "/performance_graph?every_n=" ++ "5#x")
      = some [(url.bytes "every_n".data, url.bytes "5".data)] ∧
    url.queryParameters ("/api/workout/" ++ "99" ++ "/performance_graph?every_n=" ++ "5;x")
      = some [] ∧
    url.queryParameters ("/api/workout/" ++ "99" ++ "/performance_graph?every_n=" ++ "a%20b")
      = some [(url.bytes "every_n".data, url.bytes "a b".data)] ∧
    url.queryParameters ("/api/workout/" ++ "99" ++ "/performance_graph?every_n=" ++ "1+1")
      = some [(url.bytes "every_n".data, url.bytes "1 1".data)] ∧
    url.queryParameters ("/api/workout/" ++ "%zz" ++ "/performance_graph?every_n=" ++ "5")
      = none ∧
    url.queryParameters ("/api/workout/" ++ "99" ++ "/performance_graph?every_n=" ++ "5\n")
      = none ∧
    ((ApiClient.mk ⟨"h"⟩ "u" "p" none).GetWorkoutDetails "%zz" "5"
        (restyWorld (some ⟨200, []⟩) none none)).1
      = Outcome.abort (Abort.runtimePanic "invalid memory address or nil pointer dereference") :=
  ⟨by decide, by decide, by decide, by decide, by decide, by decide, by decide, by decide,
    by decide, by decide, by decide, rfl⟩

end peloton
